import Mathlib

/-!
Verification development for the VelocityJS client-side router
(`src/core/router.js`, class `VelocityRouter`).

The JavaScript source is shallowly embedded as executable Lean definitions:

* Strings are Lean `String`s; most scanning is done on the underlying
  `List Char`, mirroring JavaScript's character-by-character regex and
  string-replace semantics.
* The compiled matchers produced by `pathToRegex` fall into a tiny fragment
  of JavaScript regex syntax (anchored sequences of literal characters and
  greedy `(.*)` capture groups, see `parseTokens`), which is modelled by the
  token type `Tok` and the backtracking matcher `caps`.  `caps` implements
  the leftmost-greedy capture semantics of the JavaScript engine for this
  fragment; the `^`/`$` anchors of the source (`new RegExp` wrapping the
  body) are represented by `caps` being a full-string matcher.  Per
  JavaScript, `.` does not match line terminators (`isLineTerm`).
* Scanning functions whose recursion consumes a variable number of
  characters per step take an explicit fuel argument so that they are
  structurally recursive and kernel-computable; each step consumes at least
  one character (or one token), so the fuel supplied by the public wrapper
  (input length + 1, or token count + input length + 1 for `caps`) is never
  exhausted and the out-of-fuel branches are unreachable.
* JavaScript `Map`s (routes, guards, layouts, caches) are association lists
  in insertion order with unique keys (`lookupAssoc` / `setAssoc`);
  `Map.set` on an existing key replaces the value in place, which preserves
  iteration order exactly as in the source.
* Route handlers, guards, middleware and layout handlers are arbitrary
  effectful JavaScript functions; they are modelled as pure functions of the
  navigation context.  A guard or middleware invocation is summarised by
  `CallResult` (returned exactly `false`, returned anything else, or threw);
  a content handler either throws or produces a string
  (`NavContext → Except Unit String`).  Error objects carry no message in
  the model, so rendered error pages contain the path but not
  `error.message`.
* DOM-only effects (loading indicator, scroll save/restore, transitions,
  `document.title`, meta tags) and the popstate listener are not part of any
  claim and are omitted; the router state the claims talk about —
  `currentRoute`, the page/layout caches, `isTransitioning`, the transition
  queue, browser history entries, and the content committed to the mount
  point — is tracked explicitly in `RouterState`.  Two observation logs are
  carried along: `renderLog` records every `renderContent` call and
  `acquireLog` records every `getRouteContent` (content-acquisition) call.
-/

namespace Velocity

/-! ### Association lists (JavaScript `Map` / plain-object semantics) -/

/-- First-match lookup in an association list (JS `Map.get`; keys are unique
by construction, insertion order is preserved). -/
def lookupAssoc {κ α : Type} [BEq κ] (l : List (κ × α)) (k : κ) : Option α :=
  (l.find? (fun p => p.1 == k)).map (fun p => p.2)

/-- JS `Map.set` / object property assignment: overwrite in place if the key
is present (keeping its position), otherwise append. -/
def setAssoc {κ α : Type} [BEq κ] (l : List (κ × α)) (k : κ) (v : α) :
    List (κ × α) :=
  if (l.find? (fun p => p.1 == k)).isSome then
    l.map (fun p => if p.1 == k then (k, v) else p)
  else
    l ++ [(k, v)]

/-! ### Character-list string utilities (JS `split`, `join`, `trim`) -/

/-- JS `String.prototype.split` with a single-character separator.  Always
returns at least one (possibly empty) part. -/
def splitOnChar (sep : Char) : List Char → List (List Char)
  | [] => [[]]
  | c :: rest =>
    if c = sep then
      [] :: splitOnChar sep rest
    else
      match splitOnChar sep rest with
      | [] => [[c]]
      | part :: parts => (c :: part) :: parts

/-- JS `Array.prototype.join` with a single-character separator. -/
def joinWithChar (sep : Char) : List (List Char) → List Char
  | [] => []
  | [part] => part
  | part :: parts => part ++ sep :: joinWithChar sep parts

/-- Whitespace stripped by JS `String.prototype.trim` (the common ASCII
whitespace plus NBSP; more exotic Unicode space code points are not
modelled, no claim involves them). -/
def isJsSpace (c : Char) : Bool :=
  c = ' ' || c = '\t' || c = '\n' || c = '\r' || c = '\x0b' || c = '\x0c' ||
    c = ' '

/-- JS `String.prototype.trim`. -/
def trimJs (s : List Char) : List Char :=
  ((s.dropWhile isJsSpace).reverse.dropWhile isJsSpace).reverse

/-! ### The compiled-matcher fragment produced by `pathToRegex`

Every regex source string `pathToRegex` can build consists only of
backslash-escaped literal characters, plain (non-special) literal
characters, and greedy wildcard capture groups `(.*)` — see `parseTokens`
below for why.  A compiled matcher is therefore a list of tokens. -/

/-- One token of a compiled matcher: a literal character or a `(.*)`
capture group. -/
inductive Tok where
  | lit (c : Char)
  | wild
deriving DecidableEq, Repr

/-- JavaScript line terminators, which `.` does not match
(ECMA-262 `LineTerminator`). -/
def isLineTerm (c : Char) : Bool :=
  c = '\n' || c = '\r' || c = ' ' || c = ' '

/-- Fueled core of `caps`.  Each recursive call strictly decreases
`ts.length + s.length`, so fuel `ts.length + s.length + 1` (supplied by
`caps`) never runs out. -/
def capsF : Nat → List Tok → List Char → Option (List (List Char))
  | 0, _, _ => none
  | _ + 1, [], [] => some []
  | _ + 1, [], _ :: _ => none
  | _ + 1, .lit _ :: _, [] => none
  | f + 1, .lit c :: ts, d :: s => if c = d then capsF f ts s else none
  | f + 1, .wild :: ts, [] => (capsF f ts []).map (fun gs => [] :: gs)
  | f + 1, .wild :: ts, d :: s =>
    if isLineTerm d then
      (capsF f ts (d :: s)).map (fun gs => [] :: gs)
    else
      match capsF f (.wild :: ts) s with
      | some (g :: gs) => some ((d :: g) :: gs)
      | _ => (capsF f ts (d :: s)).map (fun gs => [] :: gs)

/-- Full-string matcher with capture extraction for the `Tok` fragment,
implementing the backtracking JavaScript engine: a `(.*)` group is greedy
(prefers to consume more) and earlier groups have priority, so on success
the returned capture list (one entry per `wild`, in group order) is exactly
what the JavaScript `match`/`exec` result contains in `matches[1..]`.
Returns `none` when the whole input cannot be matched (anchored `^...$`
semantics of the source's `new RegExp` wrapper). -/
def caps (ts : List Tok) (s : List Char) : Option (List (List Char)) :=
  capsF (ts.length + s.length + 1) ts s

/-- `RegExp.prototype.test` for a compiled matcher. -/
def regexTest (toks : List Tok) (s : String) : Bool :=
  (caps toks s.data).isSome

/-! ### `pathToRegex` (router.js lines 754-769)

The source builds a regex source string in five steps; each step is
translated below as a character-list transformation with JavaScript
`String.replace` semantics (leftmost, non-overlapping, continue after the
replacement; on a failed match attempt the scan advances by one
character). -/

/-- Step 1 — `path.replace(this.catchAllRouteRegex, '(.*)')` with
`catchAllRouteRegex = /\[\.\.\.([^\]]+)\]/g`: every `[...name]` (name = one
or more characters other than `]`, greedy) becomes `(.*)`. -/
def replaceCatchAllF : Nat → List Char → List Char
  | 0, _ => []
  | _ + 1, [] => []
  | f + 1, '[' :: '.' :: '.' :: '.' :: rest =>
    let name := rest.takeWhile (fun c => c ≠ ']')
    if !name.isEmpty && (rest.drop name.length).take 1 = [']'] then
      '(' :: '.' :: '*' :: ')' ::
        replaceCatchAllF f ((rest.drop name.length).drop 1)
    else
      '[' :: replaceCatchAllF f ('.' :: '.' :: '.' :: rest)
  | f + 1, c :: rest => c :: replaceCatchAllF f rest

/-- Wrapper for `replaceCatchAllF` with always-sufficient fuel. -/
def replaceCatchAll (s : List Char) : List Char :=
  replaceCatchAllF (s.length + 1) s

/-- Step 2 — `pattern.replace(this.dynamicRouteRegex, '([^/]+)')` with
`dynamicRouteRegex = /\[([^\]]+)\]/g`: every remaining `[name]` becomes the
seven characters `([^/]+)`. -/
def replaceDynamicF : Nat → List Char → List Char
  | 0, _ => []
  | _ + 1, [] => []
  | f + 1, '[' :: rest =>
    let name := rest.takeWhile (fun c => c ≠ ']')
    if !name.isEmpty && (rest.drop name.length).take 1 = [']'] then
      '(' :: '[' :: '^' :: '/' :: ']' :: '+' :: ')' ::
        replaceDynamicF f ((rest.drop name.length).drop 1)
    else
      '[' :: replaceDynamicF f rest
  | f + 1, c :: rest => c :: replaceDynamicF f rest

/-- Wrapper for `replaceDynamicF` with always-sufficient fuel. -/
def replaceDynamic (s : List Char) : List Char :=
  replaceDynamicF (s.length + 1) s

/-- The character class of
`pattern.replace(/[-\/\\^$*+?.()|[\]{}]/g, '\\$&')`. -/
def specialChars : List Char :=
  ['-', '/', '\\', '^', '$', '*', '+', '?', '.', '(', ')', '|', '[', ']',
    '\x7b', '\x7d']

/-- Step 3 — escape: prefix every special regex character with a
backslash. -/
def escapeRegex : List Char → List Char
  | [] => []
  | c :: rest =>
    if c ∈ specialChars then '\\' :: c :: escapeRegex rest
    else c :: escapeRegex rest

/-- The eight characters the escaping step makes of `(.*)`. -/
def wildEsc : List Char := ['\\', '(', '\\', '.', '\\', '*', '\\', ')']

/-- Step 4a — `pattern.replace(/\\\(\\\.\\\*\\\)/g, '(.*)')`: restore every
literal occurrence of `\(\.\*\)` to `(.*)`. -/
def restoreWildcardF : Nat → List Char → List Char
  | 0, _ => []
  | _ + 1, [] => []
  | f + 1, c :: rest =>
    if wildEsc.isPrefixOf (c :: rest) then
      '(' :: '.' :: '*' :: ')' :: restoreWildcardF f ((c :: rest).drop 8)
    else
      c :: restoreWildcardF f rest

/-- Wrapper for `restoreWildcardF` with always-sufficient fuel. -/
def restoreWildcard (s : List Char) : List Char :=
  restoreWildcardF (s.length + 1) s

/-- Step 4b — `pattern.replace(/\\\(\\\[\\^\\\/\\\]\\\+\\\)/g, '([^/]+)')`.
The regex literal decodes to: literal `\`, literal `(`, literal `\`,
literal `[`, literal `\`, then an UNESCAPED `^` — a start-of-input
assertion (the source has `\\^`, two backslashes, where restoring the
escaped `\^` would need three) — then literal `\`, `/`, literal `\`, `]`,
literal `\`, `+`, literal `\`, `)`.  A start-of-input assertion preceded by
five mandatory characters can never hold, so this replace matches nowhere
and is the identity on every string: the escaped dynamic-segment text
`\(\[\^\/\]\+\)` is never restored to a capture group. -/
def restoreDynamicSegment (s : List Char) : List Char := s

/-- Parse the final regex source body into tokens.  After steps 1-4 every
unescaped special character in the body occurs inside a restored `(.*)`
(step 3 escaped all of them, step 4a re-created only whole `(.*)` groups
and step 4b re-created nothing), so the body is a concatenation of `(.*)`
groups, `\c` escapes — all of which are identity escapes, since step 3 only
escapes punctuation — and plain literal characters. -/
def parseTokensF : Nat → List Char → List Tok
  | 0, _ => []
  | _ + 1, [] => []
  | f + 1, '(' :: '.' :: '*' :: ')' :: rest => .wild :: parseTokensF f rest
  | f + 1, '\\' :: c :: rest => .lit c :: parseTokensF f rest
  | f + 1, c :: rest => .lit c :: parseTokensF f rest

/-- Wrapper for `parseTokensF` with always-sufficient fuel. -/
def parseTokens (s : List Char) : List Tok :=
  parseTokensF (s.length + 1) s

/-- `pathToRegex(path)` (router.js 754-769): compile a route pattern to a
matcher.  The result is the token form of the regex body; the `^...$`
anchors added by `new RegExp` are part of `caps`'s full-string
semantics. -/
def pathToRegex (path : String) : List Tok :=
  parseTokens (restoreDynamicSegment (restoreWildcard (escapeRegex
    (replaceDynamic (replaceCatchAll path.data)))))

/-! ### `extractKeys` / `extractParams` (router.js 823-853) -/

/-- A named parameter slot recorded by `extractKeys`. -/
structure RouteKey where
  name : String
  catchAll : Bool
deriving DecidableEq, Repr

/-- The catch-all scan of `extractKeys`: successive non-overlapping matches
of `/\[\.\.\.([^\]]+)\]/g`, collecting the captured names. -/
def scanCatchAllKeysF : Nat → List Char → List String
  | 0, _ => []
  | _ + 1, [] => []
  | f + 1, '[' :: '.' :: '.' :: '.' :: rest =>
    let name := rest.takeWhile (fun c => c ≠ ']')
    if !name.isEmpty && (rest.drop name.length).take 1 = [']'] then
      String.mk name :: scanCatchAllKeysF f ((rest.drop name.length).drop 1)
    else
      scanCatchAllKeysF f ('.' :: '.' :: '.' :: rest)
  | f + 1, _ :: rest => scanCatchAllKeysF f rest

/-- Wrapper for `scanCatchAllKeysF` with always-sufficient fuel. -/
def scanCatchAllKeys (s : List Char) : List String :=
  scanCatchAllKeysF (s.length + 1) s

/-- The dynamic scan of `extractKeys`: successive non-overlapping matches
of `/\[([^\]]+)\]/g`, collecting the captured names (the caller filters out
names that start with `...`). -/
def scanDynamicKeysF : Nat → List Char → List String
  | 0, _ => []
  | _ + 1, [] => []
  | f + 1, '[' :: rest =>
    let name := rest.takeWhile (fun c => c ≠ ']')
    if !name.isEmpty && (rest.drop name.length).take 1 = [']'] then
      String.mk name :: scanDynamicKeysF f ((rest.drop name.length).drop 1)
    else
      scanDynamicKeysF f rest
  | f + 1, _ :: rest => scanDynamicKeysF f rest

/-- Wrapper for `scanDynamicKeysF` with always-sufficient fuel. -/
def scanDynamicKeys (s : List Char) : List String :=
  scanDynamicKeysF (s.length + 1) s

/-- `extractKeys(path)` (router.js 823-840): all catch-all names first
(marked `catchAll`), then all dynamic-scan names that do not start with
`...`.  Both scans run independently over the original pattern string. -/
def extractKeys (path : String) : List RouteKey :=
  let catchAlls :=
    (scanCatchAllKeys path.data).map (fun n => RouteKey.mk n true)
  let dynamics :=
    ((scanDynamicKeys path.data).filter (fun n => !(n.take 3 == "..."))).map
      (fun n => RouteKey.mk n false)
  catchAlls ++ dynamics

/-- `extractParams(pathname, route)` (router.js 842-853): run the compiled
matcher against the pathname; on no match the params object stays empty.
Otherwise assign `params[keys[index].name] = matches[index + 1]` for each
key in order — `matches[index + 1]` is capture group `index`, or JS
`undefined` (`none` here) when the group index exceeds the group count. -/
def extractParams (pathname : String) (regex : List Tok)
    (keys : List RouteKey) : List (String × Option String) :=
  match caps regex pathname.data with
  | none => []
  | some gs =>
    (keys.enum).foldl
      (fun ps ik =>
        setAssoc ps ik.2.name ((gs.get? ik.1).map (fun g => String.mk g)))
      []

/-! ### JavaScript values and the `{{dotted.path}}` template engine
(`processHtmlTemplate`, router.js 423-435) -/

/-- A JavaScript value as far as the template engine observes it.  Numbers
and functions are not needed by any claim; prototype-inherited properties
of primitives (such as `"x".length`) are not modelled. -/
inductive JsVal where
  | undefined
  | jsNull
  | bool (b : Bool)
  | str (s : String)
  | obj (fields : List (String × JsVal))

/-- Optional-chained property access `value?.[k]`: `null`/`undefined` (and
any primitive, whose prototype is not modelled) give `undefined`; an object
gives the property value or `undefined` when absent. -/
def jsGet : JsVal → String → JsVal
  | .obj fields, k => (lookupAssoc fields k).getD .undefined
  | _, _ => .undefined

/-- JS `String(value)` for the modelled values. -/
def toJsString : JsVal → String
  | .undefined => "undefined"
  | .jsNull => "null"
  | .bool true => "true"
  | .bool false => "false"
  | .str s => s
  | .obj _ => "[object Object]"

/-- Render one matched placeholder (the replacer callback of
`processHtmlTemplate`): trim the captured key, split it on `.`, walk the
context with optional chaining, and substitute `String(value)` unless the
walk ended in `undefined`, in which case the whole match `{{key}}` is kept
verbatim. -/
def renderKey (ctx : JsVal) (key : List Char) : List Char :=
  let path := (splitOnChar '.' (trimJs key)).map (fun k => String.mk k)
  match path.foldl (fun v k => jsGet v k) ctx with
  | .undefined => '\x7b' :: '\x7b' :: (key ++ ['\x7d', '\x7d'])
  | v => (toJsString v).data

/-- Does the regex `/\{\{([^}]+)\}\}/` match at the very start of `s`?
(Two braces, then a maximal nonempty run of characters other than `}` —
greedy `[^}]+` cannot be shortened usefully since `\}` demands a brace —
then two closing braces.) -/
def isPhAt (s : List Char) : Bool :=
  match s with
  | a :: b :: rest =>
    a = '\x7b' && b = '\x7b' &&
      (let key := rest.takeWhile (fun c => c ≠ '\x7d')
       !key.isEmpty && decide ((rest.drop key.length).take 2 = ['\x7d', '\x7d']))
  | _ => false

/-- The captured key of a placeholder match at the start of `s`. -/
def phKeyAt (s : List Char) : List Char :=
  match s with
  | _ :: _ :: rest => rest.takeWhile (fun c => c ≠ '\x7d')
  | _ => []

/-- The remainder of `s` after a placeholder match at its start
(`{{` + key + `}}` = key length + 4 characters). -/
def phRestAt (s : List Char) : List Char :=
  s.drop ((phKeyAt s).length + 4)

/-- Fueled scan of `html.replace(/\{\{([^}]+)\}\}/g, callback)`: at each
position try to match a whole placeholder; on a match emit the callback
result and continue after it, otherwise emit the character and advance by
one.  Each step consumes at least one character, so the wrapper's fuel
never runs out. -/
def processTemplAuxF (ctx : JsVal) : Nat → List Char → List Char
  | 0, _ => []
  | _ + 1, [] => []
  | f + 1, c :: rest =>
    if isPhAt (c :: rest) then
      renderKey ctx (phKeyAt (c :: rest)) ++
        processTemplAuxF ctx f (phRestAt (c :: rest))
    else
      c :: processTemplAuxF ctx f rest

/-- List-level wrapper with always-sufficient fuel. -/
def processTemplAux (ctx : JsVal) (s : List Char) : List Char :=
  processTemplAuxF ctx (s.length + 1) s

/-- `processHtmlTemplate(html, context)` (router.js 423-435). -/
def processHtmlTemplate (html : String) (ctx : JsVal) : String :=
  String.mk (processTemplAux ctx html.data)

/-! ### JS `String.prototype.replace(string, string)` with replacement
patterns (ECMA-262 `GetSubstitution`), used by `applyLayout` -/

/-- The backquote character. -/
def backquoteChar : Char := Char.ofNat 96

/-- The single-quote (apostrophe) character. -/
def quoteChar : Char := Char.ofNat 39

/-- ECMA-262 `GetSubstitution` for a replacement string when the search
value is a plain string (so there are no capture groups): `$$` gives `$`,
`$&` the matched substring, a `$`-backquote the text before the match, a
`$`-quote the text after the match; any other `$` (including `$n`, since
there are no groups) is literal and scanning resumes after it. -/
def getSubstitution (matched before after : List Char) : List Char → List Char
  | [] => []
  | [c] => [c]
  | c :: d :: r2 =>
    if c = '$' then
      if d = '$' then '$' :: getSubstitution matched before after r2
      else if d = '&' then matched ++ getSubstitution matched before after r2
      else if d = backquoteChar then before ++ getSubstitution matched before after r2
      else if d = quoteChar then after ++ getSubstitution matched before after r2
      else '$' :: getSubstitution matched before after (d :: r2)
    else c :: getSubstitution matched before after (d :: r2)

/-- Index of the first occurrence of `pat` in `s` (JS `String.indexOf`). -/
def firstIndexOf (s pat : List Char) : Option Nat :=
  if pat.isPrefixOf s then some 0
  else
    match s with
    | [] => none
    | _ :: rest => (firstIndexOf rest pat).map (fun i => i + 1)

/-- JS `s.replace(pat, rep)` with string search value and string
replacement: replace only the first occurrence, processing replacement
patterns in `rep` via `GetSubstitution`. -/
def jsReplaceOnce (s pat rep : List Char) : List Char :=
  match firstIndexOf s pat with
  | none => s
  | some i =>
    s.take i ++ getSubstitution pat (s.take i) (s.drop (i + pat.length)) rep ++
      s.drop (i + pat.length)

/-- The literal placeholder `{{content}}` replaced by `applyLayout`. -/
def contentPH : String := "\x7b\x7bcontent\x7d\x7d"

/-! ### URL parsing (`parseUrl`, `parseQuery`; router.js 855-874) -/

/-- `parseUrl(url)` pathname part: `url.split('?')[0]`.  (The source's
fallback to `window.location` for a missing url is environment-dependent
and not modelled; every call site in the model passes a string.) -/
def parseUrlPath (url : String) : String :=
  String.mk ((splitOnChar '?' url.data).headD [])

/-- `parseUrl(url)` search part: `url.split('?')[1] ?? ''` (via array
destructuring with default). -/
def parseUrlSearch (url : String) : String :=
  String.mk (((splitOnChar '?' url.data).drop 1).headD [])

/-- One `key=value` entry of a query string: the key is everything before
the first `=`; a part without `=` has the empty string as value. -/
def parseQueryPart (part : List Char) : String × String :=
  let k := part.takeWhile (fun c => c ≠ '=')
  if k.length = part.length then (String.mk part, "")
  else (String.mk k, String.mk ((part.drop k.length).drop 1))

/-- `parseQuery(search)` (router.js 865-874) via `URLSearchParams`: split
on `&`, drop empty parts, later duplicate keys overwrite earlier ones.
(Percent/`+` decoding of `URLSearchParams` is not modelled; no claim
involves encoded characters.) -/
def parseQuery (search : String) : List (String × String) :=
  if search.isEmpty then []
  else
    ((splitOnChar '&' search.data).filter (fun p => !p.isEmpty)).foldl
      (fun acc part =>
        setAssoc acc (parseQueryPart part).1 (parseQueryPart part).2) []

/-! ### Router data model -/

/-- Summary of one invocation of a JS guard or middleware function: it
returned exactly `false`, returned any other value (including
`undefined`), or threw. -/
inductive CallResult where
  | retFalse
  | retOther
  | threw
deriving DecidableEq, Repr

/-- The navigation context constructed by `handleRoute` (function-valued
members `navigate`, `redirect`, `setTitle`, `setMeta`, `getLayoutData` are
bound router methods and carry no data; they are omitted).  `fullPath` is
`none` only for the synthetic context `handle404` builds, whose `fullPath`
property is JS `undefined`. -/
structure NavContext where
  path : String
  fullPath : Option String
  params : List (String × Option String)
  query : List (String × String)
deriving DecidableEq, Repr

/-- A route guard as observed by `runRouteGuards`. -/
abbrev RouteGuard := NavContext → CallResult

/-- A middleware as observed by the middleware loop of `handleRoute`. -/
abbrev Middleware := NavContext → CallResult

/-- A registered route (`routeConfig` built by `addRoute`, router.js
61-113).  The `handler` abstracts `getRouteContent`'s four content sources
(fetched HTML, named component, handler function, handler URL string):
each one either produces a string or throws.  Option fields that only feed
DOM metadata or visual effects (`preload`, `title`, `meta`, `transition`,
`scrollToTop`, `keepAlive`, `errorBoundary`, lazy/nested-route handling)
are omitted; `guards` is stored by the source but never read
(`runRouteGuards` consults the separate `addGuard` registry). -/
structure RouteConfig where
  path : String
  handler : NavContext → Except Unit String
  cache : Bool
  middleware : List Middleware
  guards : List RouteGuard
  layout : Option String
  regex : List Tok
  keys : List RouteKey

/-- Options accepted by `navigate(path, options)`. -/
structure NavOptions where
  force : Bool := false
  replace : Bool := false
deriving DecidableEq, Repr

/-- The `VelocityRouter` instance state observed by the claims, plus two
observation logs: `renderLog` records each string committed to the mount
point by `renderContent`, and `acquireLog` records the context `fullPath`
of each `getRouteContent` (content-acquisition) call. -/
structure RouterState where
  routes : List (String × RouteConfig)
  middlewares : List Middleware
  routeGuards : List (String × List RouteGuard)
  layouts : List (String × (NavContext → Except Unit String))
  defaultLayout : Option String
  currentRoute : Option NavContext
  pageCache : List (Option String × String)
  layoutCache : List (String × String)
  routeParams : List (String × Option String)
  queryParams : List (String × String)
  isTransitioning : Bool
  transitionQueue : List (String × NavOptions)
  history : List String
  renderLog : List String
  acquireLog : List (Option String)
  emitLog : List NavContext

/-- The freshly constructed router (constructor, router.js 2-41; `history`
holds the entries of the environment's history stack, most recent last). -/
def emptyRouter : RouterState :=
  { routes := [], middlewares := [], routeGuards := [], layouts := []
    defaultLayout := none, currentRoute := none, pageCache := []
    layoutCache := [], routeParams := [], queryParams := []
    isTransitioning := false, transitionQueue := [], history := []
    renderLog := [], acquireLog := [], emitLog := [] }

/-! ### Registration (`addRoute`, `addGuard`, `addLayout`, `use`) -/

/-- The `options` bag of `addRoute` as far as the model reads it;
`options.cache` is an arbitrary JS value (defaulting to `undefined` when
omitted) because the source tests it with `options.cache !== false`. -/
structure RouteOptions where
  cache : JsVal := .undefined
  middleware : List Middleware := []
  guards : List RouteGuard := []
  layout : Option String := none

/-- Is a JS value strictly equal (`===`) to `false`? -/
def isExplicitFalse : JsVal → Bool
  | .bool false => true
  | _ => false

/-- `addRoute(path, handler, options)` (router.js 61-113): build the route
config — in particular `cache: options.cache !== false` — compile the
matcher and keys, and store the config under the pattern (`Map.set`:
re-registering a pattern overwrites in place). -/
def addRoute (st : RouterState) (path : String)
    (handler : NavContext → Except Unit String)
    (options : RouteOptions) : RouterState :=
  let routeConfig : RouteConfig :=
    { path := path
      handler := handler
      cache := !isExplicitFalse options.cache
      middleware := options.middleware
      guards := options.guards
      layout := options.layout.orElse (fun _ => st.defaultLayout)
      regex := pathToRegex path
      keys := extractKeys path }
  { st with routes := setAssoc st.routes path routeConfig }

/-- `addGuard(path, guardFunction)` (router.js 156-162): append to the
guard list registered under `path`. -/
def addGuard (st : RouterState) (path : String) (guardFunction : RouteGuard) :
    RouterState :=
  match lookupAssoc st.routeGuards path with
  | none =>
    { st with routeGuards := setAssoc st.routeGuards path [guardFunction] }
  | some gs =>
    { st with routeGuards := setAssoc st.routeGuards path (gs ++ [guardFunction]) }

/-- `addLayout(name, layoutHandler)` (router.js 148-151). -/
def addLayout (st : RouterState) (name : String)
    (layoutHandler : NavContext → Except Unit String) : RouterState :=
  { st with layouts := setAssoc st.layouts name layoutHandler }

/-- `use(middleware)` (router.js 798-801): append a global middleware. -/
def useMiddleware (st : RouterState) (m : Middleware) : RouterState :=
  { st with middlewares := st.middlewares ++ [m] }

/-! ### Route matching (`matchRoute`, router.js 729-749) -/

/-- Does a registered route's compiled matcher accept the pathname? -/
def acceptsRoute (pathname : String) (pr : String × RouteConfig) : Bool :=
  regexTest pr.2.regex pathname

/-- `pathname.split('/').filter(Boolean)`. -/
def pathSegments (pathname : String) : List (List Char) :=
  (splitOnChar '/' pathname.data).filter (fun s => !s.isEmpty)

/-- `'/' + segments.slice(0, i).join('/')`. -/
def prefixPath (segments : List (List Char)) (i : Nat) : String :=
  String.mk ('/' :: joinWithChar '/' (segments.take i))

/-- The nested-fallback loop of `matchRoute`: for `i` from the full segment
count down to `1`, test the prefix path against every route in registration
order. -/
def matchLoop (routes : List (String × RouteConfig))
    (segments : List (List Char)) : Nat → Option (String × RouteConfig)
  | 0 => none
  | i + 1 =>
    match routes.find? (acceptsRoute (prefixPath segments (i + 1))) with
    | some pr => some pr
    | none => matchLoop routes segments i

/-- `matchRoute(pathname)` (router.js 729-749): first try every route (in
registration order) against the full pathname; on failure retry
progressively shorter segment prefixes; `null` when nothing matches. -/
def matchRoute (routes : List (String × RouteConfig)) (pathname : String) :
    Option (String × RouteConfig) :=
  match routes.find? (acceptsRoute pathname) with
  | some pr => some pr
  | none => matchLoop routes (pathSegments pathname) (pathSegments pathname).length

/-! ### Rendering pipeline (`executeRouteWithLayout`, `handleRoute`,
`navigate`; router.js 175-347) -/

/-- The generic not-found page rendered by `handle404` when no `*` or
`/404` route exists. -/
def notFoundHtml : String :=
  "<h1>404 - Page Not Found</h1><p>The requested page could not be found.</p>"

/-- The page rendered by `handleRouteError` (the `error.message` suffix is
not modelled since errors carry no message). -/
def routeErrorHtml (path : String) : String :=
  "<h1>Route Error</h1><p>Failed to load " ++ path ++ "</p>"

/-- The page rendered by `handleNavigationError` (again without
`error.message`). -/
def navErrorHtml (path : String) : String :=
  "<h1>Navigation Error</h1><p>Failed to navigate to " ++ path ++ "</p>"

/-- `renderContent(content)` (router.js 885-896): commit a string to the
mount point; the model records it in `renderLog`. -/
def renderContent (st : RouterState) (content : String) : RouterState :=
  { st with renderLog := st.renderLog ++ [content] }

/-- `getRouteContent(routeConfig, context)` (router.js 352-382): one
content acquisition.  The four source branches are abstracted into the
route's `handler`; the model records the acquisition in `acquireLog`. -/
def getRouteContent (st : RouterState) (cfg : RouteConfig) (ctx : NavContext) :
    RouterState × Except Unit String :=
  ({ st with acquireLog := st.acquireLog ++ [ctx.fullPath] }, cfg.handler ctx)

/-- `applyLayout(layoutName, content, context)` (router.js 464-496) for a
string-named layout (a function-valued `layoutName`, whose cache key would
stringify the function source, is not modelled — no claim uses it):
missing layout → content unchanged; otherwise render (or reuse the cached
render of) the layout and substitute the first `{{content}}` via JS string
`replace`.  A throwing layout handler is caught and the content returned
unchanged. -/
def applyLayout (st : RouterState) (layoutName : String) (content : String)
    (ctx : NavContext) : RouterState × String :=
  match lookupAssoc st.layouts layoutName with
  | none => (st, content)
  | some layoutHandler =>
    match lookupAssoc st.layoutCache (layoutName ++ "_" ++ ctx.path) with
    | some cachedLayout =>
      (st, String.mk (jsReplaceOnce cachedLayout.data contentPH.data content.data))
    | none =>
      match layoutHandler ctx with
      | .ok layoutContent =>
        ({ st with
            layoutCache := setAssoc st.layoutCache
              (layoutName ++ "_" ++ ctx.path) layoutContent },
          String.mk (jsReplaceOnce layoutContent.data contentPH.data content.data))
      | .error _ => (st, content)

/-- The `if (routeConfig.layout)` step of `executeRouteWithLayout`. -/
def applyLayoutStep (st : RouterState) (cfg : RouteConfig) (content : String)
    (ctx : NavContext) : RouterState × String :=
  match cfg.layout with
  | none => (st, content)
  | some name => applyLayout st name content ctx

/-- The `if (routeConfig.cache && content)` cache-store step of
`executeRouteWithLayout`: store the produced content under the full path
when the route is cacheable and the content is truthy (non-empty). -/
def cacheStore (st : RouterState) (cfg : RouteConfig)
    (cacheKey : Option String) (content : String) : RouterState :=
  if cfg.cache && !(content == "") then
    { st with pageCache := setAssoc st.pageCache cacheKey content }
  else st

/-- `executeRouteWithLayout(routeConfig, context)` (router.js 316-347):
cache lookup (key = `context.fullPath`) when the route is cacheable,
otherwise content acquisition followed by a cache store — only for truthy
(non-empty) content — then layout application and render.  A throwing
handler is caught here (`handleRouteError`) and an error page rendered. -/
def executeRouteWithLayout (st : RouterState) (cfg : RouteConfig)
    (ctx : NavContext) : RouterState :=
  match (if cfg.cache then lookupAssoc st.pageCache ctx.fullPath else none) with
  | some content =>
    renderContent (applyLayoutStep st cfg content ctx).1
      (applyLayoutStep st cfg content ctx).2
  | none =>
    match (getRouteContent st cfg ctx).2 with
    | .error _ =>
      renderContent (getRouteContent st cfg ctx).1 (routeErrorHtml ctx.path)
    | .ok content =>
      renderContent
        (applyLayoutStep (cacheStore (getRouteContent st cfg ctx).1 cfg
          ctx.fullPath content) cfg content ctx).1
        (applyLayoutStep (cacheStore (getRouteContent st cfg ctx).1 cfg
          ctx.fullPath content) cfg content ctx).2

/-- `handle404(pathname)` (router.js 929-942): use the `*` or `/404` route
with a synthetic context (whose `fullPath` is `undefined`), else render the
generic not-found page.  `currentRoute` is NOT updated. -/
def handle404 (st : RouterState) (pathname : String) : RouterState :=
  match (lookupAssoc st.routes "*").orElse (fun _ => lookupAssoc st.routes "/404") with
  | some cfg =>
    executeRouteWithLayout st cfg
      { path := pathname, fullPath := none, params := [], query := [] }
  | none => renderContent st notFoundHtml

/-- How one pass of `handleRoute` ended. -/
inductive HandleOutcome where
  | notFound
  | guardRejected
  | middlewareRejected
  | threw
  | committed
deriving DecidableEq, Repr

/-- `runRouteGuards(path, context)` (router.js 529-546) instrumented with
the number of guard invocations: guards run in registration order; a guard
that throws is caught and treated like an explicit `false` (stop, reject);
any other return value continues. -/
def runRouteGuardsExec : List RouteGuard → NavContext → Bool × Nat
  | [], _ => (true, 0)
  | g :: gs, ctx =>
    match g ctx with
    | .threw => (false, 1)
    | .retFalse => (false, 1)
    | .retOther =>
      ((runRouteGuardsExec gs ctx).1, (runRouteGuardsExec gs ctx).2 + 1)

/-- Result of the middleware loop of `handleRoute` (router.js 286-292): a
thrown middleware error propagates out of `handleRoute`. -/
inductive MwOutcome where
  | passed
  | blocked
  | mwThrew
deriving DecidableEq, Repr

/-- The middleware loop of `handleRoute`: global middlewares concatenated
with the route's own, in order; a `false` return aborts, a throw
propagates. -/
def runMiddlewares : List Middleware → NavContext → MwOutcome
  | [], _ => .passed
  | m :: ms, ctx =>
    match m ctx with
    | .threw => .mwThrew
    | .retFalse => .blocked
    | .retOther => runMiddlewares ms ctx

/-- The navigation context `handleRoute` builds for a matched route. -/
def routeContext (fullPath : String) (cfg : RouteConfig) : NavContext :=
  let pathname := parseUrlPath fullPath
  { path := pathname
    fullPath := some fullPath
    params := extractParams pathname cfg.regex cfg.keys
    query := parseQuery (parseUrlSearch fullPath) }

/-- The `this.routeParams = ...; this.queryParams = ...` step of
`handleRoute` (router.js 262-264). -/
def paramsStored (st : RouterState) (fullPath : String) (cfg : RouteConfig) :
    RouterState :=
  { st with routeParams := (routeContext fullPath cfg).params
            queryParams := (routeContext fullPath cfg).query }

/-- The commit tail of `handleRoute` (router.js 294-310): set
`currentRoute`, execute the route with layout, and emit the route-change
event. -/
def commitRoute (st : RouterState) (fullPath : String) (cfg : RouteConfig) :
    RouterState :=
  { executeRouteWithLayout
      { paramsStored st fullPath cfg with
          currentRoute := some (routeContext fullPath cfg) }
      cfg (routeContext fullPath cfg) with
    emitLog := (executeRouteWithLayout
      { paramsStored st fullPath cfg with
          currentRoute := some (routeContext fullPath cfg) }
      cfg (routeContext fullPath cfg)).emitLog ++ [routeContext fullPath cfg] }

/-- `handleRoute(fullPath, options)` (router.js 253-311): match, extract
params/query (stored on the router), run the guards registered under the
PATHNAME (`this.runRouteGuards(pathname, context)` — not under the matched
pattern), run global-then-route middleware, then commit. -/
def handleRoute (st : RouterState) (fullPath : String) :
    RouterState × HandleOutcome :=
  match matchRoute st.routes (parseUrlPath fullPath) with
  | none => (handle404 st (parseUrlPath fullPath), .notFound)
  | some pr =>
    if !(runRouteGuardsExec
        ((lookupAssoc st.routeGuards (parseUrlPath fullPath)).getD [])
        (routeContext fullPath pr.2)).1 then
      (paramsStored st fullPath pr.2, .guardRejected)
    else
      match runMiddlewares (st.middlewares ++ pr.2.middleware)
          (routeContext fullPath pr.2) with
      | .mwThrew => (paramsStored st fullPath pr.2, .threw)
      | .blocked => (paramsStored st fullPath pr.2, .middlewareRejected)
      | .passed => (commitRoute st fullPath pr.2, .committed)

/-- `handleRouteWithTransition(path, options)` (router.js 229-248): its own
match (404 on failure, before any transition effect), then `handleRoute`.
Transition effects are DOM-only and omitted. -/
def handleRouteWithTransition (st : RouterState) (path : String) :
    RouterState × HandleOutcome :=
  match matchRoute st.routes (parseUrlPath path) with
  | none => (handle404 st (parseUrlPath path), .notFound)
  | some _ => handleRoute st path

/-- How a `navigate` call ended. -/
inductive NavOutcome where
  | queued
  | skipped
  | notFound
  | guardRejected
  | middlewareRejected
  | threw
  | committed
deriving DecidableEq, Repr

/-- Map a `handleRoute` outcome to the corresponding `navigate` outcome. -/
def HandleOutcome.toNav : HandleOutcome → NavOutcome
  | .notFound => .notFound
  | .guardRejected => .guardRejected
  | .middlewareRejected => .middlewareRejected
  | .threw => .threw
  | .committed => .committed

/-- The `this.currentRoute && this.currentRoute.fullPath === path` test of
`navigate`. -/
def sameRouteB (st : RouterState) (path : String) : Bool :=
  match st.currentRoute with
  | some c => c.fullPath == some path
  | none => false

/-- `history.replaceState` swaps the current (most recent) entry;
`history.pushState` appends a new one. -/
def pushOrReplace (history : List String) (path : String) (replace : Bool) :
    List String :=
  if replace then history.dropLast ++ [path] else history ++ [path]

/-- The body of `navigate`'s `try` block past the two early returns
(router.js 191-223): set `isTransitioning`, handle the route, then
UNCONDITIONALLY update history (push or replace), clear the flag, and
dequeue the next queued navigation if any (the source schedules it with
`setTimeout(..., 0)`; the model returns it as the third component).  A
thrown error (only a middleware throw reaches here in the model) lands in
the `catch` block: flag cleared, error page rendered, and the queue NOT
touched. -/
def navigateRun (st : RouterState) (path : String) (opts : NavOptions) :
    RouterState × NavOutcome × Option (String × NavOptions) :=
  match handleRouteWithTransition { st with isTransitioning := true } path with
  | (stX, .threw) =>
    (renderContent { stX with isTransitioning := false } (navErrorHtml path),
      .threw, none)
  | (stX, h) =>
    match stX.transitionQueue with
    | [] =>
      ({ stX with history := pushOrReplace stX.history path opts.replace
                  isTransitioning := false }, h.toNav, none)
    | next :: rest =>
      ({ stX with history := pushOrReplace stX.history path opts.replace
                  isTransitioning := false
                  transitionQueue := rest }, h.toNav, some next)

/-- `navigate(path, options)` (router.js 175-224).  While a transition is
in flight (and `force` is unset) the request is queued and the call
returns; a repeat navigation to the committed full path (without `force`)
is skipped; otherwise the main body runs. -/
def navigate (st : RouterState) (path : String) (opts : NavOptions) :
    RouterState × NavOutcome × Option (String × NavOptions) :=
  if st.isTransitioning && !opts.force then
    ({ st with transitionQueue := st.transitionQueue ++ [(path, opts)] },
      .queued, none)
  else if sameRouteB st path && !opts.force then
    (st, .skipped, none)
  else
    navigateRun st path opts

/-! ### Derived notions used by the theorem statements -/

/-- A sequence of literal-character tokens. -/
def litToks (l : List Char) : List Tok := l.map Tok.lit

/-- A piece of an HTML text as the template scanner sees it: literal text
or one `{{key}}` placeholder. -/
inductive Chunk where
  | lit (s : List Char)
  | ph (key : List Char)

/-- The source text of a chunk. -/
def chunkSource : Chunk → List Char
  | .lit s => s
  | .ph k => '\x7b' :: '\x7b' :: (k ++ ['\x7d', '\x7d'])

/-- What `processHtmlTemplate` renders for a chunk. -/
def chunkRender (ctx : JsVal) : Chunk → List Char
  | .lit s => s
  | .ph k => renderKey ctx k

/-- Well-formedness of a chunk decomposition: literal pieces contain no
opening brace (so no placeholder can start inside or across them) and
placeholder keys are nonempty without closing braces (the shape the
regex `/\{\{([^}]+)\}\}/` captures). -/
def chunkWF : Chunk → Prop
  | .lit s => '\x7b' ∉ s
  | .ph k => k ≠ [] ∧ '\x7d' ∉ k

/-- Concatenated source text of a chunk list. -/
def chunksSource (cs : List Chunk) : List Char := (cs.map chunkSource).flatten

/-- Concatenated rendering of a chunk list. -/
def chunksRender (ctx : JsVal) (cs : List Chunk) : List Char :=
  (cs.map (chunkRender ctx)).flatten

/-! ### Concrete fixtures used by counterexamples and witnesses -/

/-- A committed context for the home route. -/
def homeCtx : NavContext :=
  { path := "/", fullPath := some "/", params := [], query := [] }

/-- A router on `/` with an `/admin` route whose (pathname-registered)
guard always returns `false`. -/
def c1State : RouterState :=
  addGuard
    (addRoute { emptyRouter with history := ["/"], currentRoute := some homeCtx }
      "/admin" (fun _ => .ok "ADMIN") {})
    "/admin" (fun _ => .retFalse)

/-- The config `addRoute` builds for `/admin` in `c1State`. -/
def c1AdminCfg : RouteConfig :=
  { path := "/admin", handler := fun _ => .ok "ADMIN", cache := true
    middleware := [], guards := [], layout := none
    regex := pathToRegex "/admin", keys := extractKeys "/admin" }

/-- A router with a route `/x`, a global middleware that throws, and one
queued navigation. -/
def c2State : RouterState :=
  { useMiddleware (addRoute emptyRouter "/x" (fun _ => .ok "X") {})
      (fun _ => .threw) with
    transitionQueue := [("/q", {})] }

/-- A router with a route `/x` and one queued navigation left over (as a
thrown navigation leaves it), ready to be drained by the next call. -/
def c2DrainState : RouterState :=
  { addRoute emptyRouter "/x" (fun _ => .ok "X") {} with
    transitionQueue := [("/q", {})] }

/-- A router whose catch-all route `/admin/[...rest]` has a guard
registered under the route's PATTERN (not under any pathname). -/
def c3State : RouterState :=
  addGuard (addRoute emptyRouter "/admin/[...rest]" (fun _ => .ok "SECRET") {})
    "/admin/[...rest]" (fun _ => .retFalse)

/-- The single registered route of the `matchRoute` fixture. -/
def c5Handler : NavContext → Except Unit String := fun _ => .ok "DOCS"

/-- The route config `addRoute emptyRouter "/docs" c5Handler {}` builds. -/
def c5DocsCfg : RouteConfig :=
  { path := "/docs", handler := c5Handler, cache := true, middleware := []
    guards := [], layout := none, regex := pathToRegex "/docs"
    keys := extractKeys "/docs" }

/-- A router with the single route `/docs`. -/
def c5State : RouterState :=
  addRoute emptyRouter "/docs" c5Handler {}

/-- Handler of the cacheable route `/a` (non-empty content). -/
def c7AHandler : NavContext → Except Unit String := fun _ => .ok "HELLO"

/-- Handler of the route `/b`. -/
def c7BHandler : NavContext → Except Unit String := fun _ => .ok "BEE"

/-- A router with cacheable routes `/a` and `/b`. -/
def c7State : RouterState :=
  addRoute (addRoute emptyRouter "/a" c7AHandler {}) "/b" c7BHandler {}

/-- The config `addRoute` builds for `/a`. -/
def c7ACfg : RouteConfig :=
  { path := "/a", handler := c7AHandler, cache := true, middleware := []
    guards := [], layout := none, regex := pathToRegex "/a"
    keys := extractKeys "/a" }

/-- `c7State` after navigating to `/a` and then to `/b`: the content of
`/a` is in the page cache and `/a` is no longer the current route. -/
def c7StateAfterAB : RouterState :=
  (navigate ((navigate c7State "/a" {}).1) "/b" {}).1

/-- A router whose cacheable route `/e` produces EMPTY (JS-falsy) content,
plus a second route `/b`. -/
def c7EmptyContentState : RouterState :=
  addRoute (addRoute emptyRouter "/e" (fun _ => .ok "") {}) "/b"
    (fun _ => .ok "B") {}

/-- `c7EmptyContentState` after navigating `/e`, `/b`, `/e`. -/
def c7CexFinal : RouterState :=
  (navigate ((navigate ((navigate c7EmptyContentState "/e" {}).1) "/b" {}).1)
    "/e" {}).1

/-- The context ` { params: { name: "Ann" } } ` of the spec scenario. -/
def ctxAnn : JsVal := .obj [("params", .obj [("name", .str "Ann")])]

/-- The same context without `params.name`. -/
def ctxNoName : JsVal := .obj [("params", .obj [])]

/-- A minimal context for layout application. -/
def plainCtx : NavContext :=
  { path := "/p", fullPath := some "/p", params := [], query := [] }

/-- A layout whose output contains `{{content}}` twice. -/
def c10Layout : String := "X\x7b\x7bcontent\x7d\x7dY\x7b\x7bcontent\x7d\x7d"

/-- A router with the layout `main` registered as `c10Layout`. -/
def c10State : RouterState :=
  addLayout emptyRouter "main" (fun _ => .ok c10Layout)

/-! ## Helper lemmas about the matcher `caps` -/

/-- The result of `capsF` does not depend on the fuel once the fuel exceeds
`ts.length + s.length` (every recursive call strictly decreases that
sum). -/
theorem capsF_fuel_eq : ∀ (f g : Nat) (ts : List Tok) (s : List Char),
    ts.length + s.length < f → ts.length + s.length < g →
    capsF f ts s = capsF g ts s := by
  intro f
  induction f with
  | zero => intro g ts s hf _; omega
  | succ f ih =>
    intro g ts s hf hg
    obtain ⟨g, rfl⟩ : ∃ g', g = g' + 1 := ⟨g - 1, by omega⟩
    cases ts with
    | nil =>
      cases s with
      | nil => rfl
      | cons d s => rfl
    | cons t ts =>
      cases t with
      | lit c =>
        cases s with
        | nil => rfl
        | cons d s =>
          simp only [List.length_cons] at hf hg
          simp only [capsF]
          rcases eq_or_ne c d with h | h
          · rw [if_pos h, if_pos h]
            exact ih g ts s (by omega) (by omega)
          · rw [if_neg h, if_neg h]
      | wild =>
        cases s with
        | nil =>
          simp only [List.length_cons] at hf hg
          simp only [capsF]
          rw [ih g ts [] (by simp; omega) (by simp; omega)]
        | cons d s =>
          simp only [List.length_cons] at hf hg
          simp only [capsF]
          have h1 : capsF f ts (d :: s) = capsF g ts (d :: s) :=
            ih g ts (d :: s) (by simp; omega) (by simp; omega)
          have h2 : capsF f (.wild :: ts) s = capsF g (.wild :: ts) s :=
            ih g (.wild :: ts) s (by simp; omega) (by simp; omega)
          rw [h1, h2]

/-- A leading literal token consumes exactly its character. -/
theorem caps_lit_cons (c : Char) (ts : List Tok) (s : List Char) :
    caps (.lit c :: ts) (c :: s) = caps ts s := by
  show capsF ((Tok.lit c :: ts).length + (c :: s).length + 1) (.lit c :: ts)
      (c :: s) = caps ts s
  simp only [List.length_cons, capsF, if_pos rfl]
  exact capsF_fuel_eq _ _ ts s (by omega) (by omega)

/-- A literal-token prefix consumes exactly the same characters. -/
theorem caps_litToks_append (p : List Char) (ts : List Tok) (s : List Char) :
    caps (litToks p ++ ts) (p ++ s) = caps ts s := by
  induction p with
  | nil => simp [litToks]
  | cons c p ih =>
    have : litToks (c :: p) ++ ts = .lit c :: (litToks p ++ ts) := by
      simp [litToks]
    rw [this, List.cons_append, caps_lit_cons, ih]

/-- A single trailing `(.*)` group greedily captures the whole remaining
input (when it contains no line terminator). -/
theorem caps_wild_single : ∀ (s : List Char),
    (∀ c ∈ s, isLineTerm c = false) → caps [.wild] s = some [s] := by
  intro s
  induction s with
  | nil => intro _; rfl
  | cons d s ih =>
    intro h
    have hd : isLineTerm d = false := h d (List.mem_cons_self d s)
    have hs : caps [.wild] s = some [s] :=
      ih (fun c hc => h c (List.mem_cons_of_mem d hc))
    unfold caps at hs
    show capsF ([Tok.wild].length + (d :: s).length + 1) [.wild] (d :: s) =
      some [d :: s]
    simp only [List.length_cons, List.length_singleton, List.length_nil,
      capsF, hd, Bool.false_eq_true, if_neg]
    have h2 : capsF (1 + (s.length + 1)) [.wild] s =
        capsF ([Tok.wild].length + s.length + 1) [.wild] s :=
      capsF_fuel_eq _ _ _ _ (by simp only [List.length_singleton]; omega)
        (by simp only [List.length_singleton]; omega)
    rw [h2, hs]
    simp

/-! ## Helper lemmas about association lists -/

/-- When `k` occurs in `l`, the in-place overwrite of `setAssoc` is what
`find?` returns. -/
theorem find?_overwrite {κ α : Type} [BEq κ] [LawfulBEq κ] :
    ∀ (l : List (κ × α)) (k : κ) (v : α),
      (l.find? (fun p => p.1 == k)).isSome = true →
      (l.map (fun p => if p.1 == k then (k, v) else p)).find?
          (fun p => p.1 == k) = some (k, v)
  | [], k, v, h => by simp at h
  | p :: l, k, v, h => by
    by_cases hp : (p.1 == k) = true
    · simp [List.find?_cons, hp]
    · have h' : (l.find? (fun q => q.1 == k)).isSome = true := by
        simpa [List.find?_cons, hp] using h
      have := find?_overwrite l k v h'
      simpa [List.find?_cons, hp] using this

/-- After `setAssoc l k v`, looking up `k` yields `v`. -/
theorem lookupAssoc_setAssoc {κ α : Type} [BEq κ] [LawfulBEq κ]
    (l : List (κ × α)) (k : κ) (v : α) :
    lookupAssoc (setAssoc l k v) k = some v := by
  unfold lookupAssoc setAssoc
  split
  · rename_i hfind
    rw [find?_overwrite l k v hfind]
    rfl
  · rename_i hfind
    have hnone : l.find? (fun p => p.1 == k) = none := by
      cases hf : l.find? (fun p => p.1 == k) with
      | none => rfl
      | some x => rw [hf] at hfind; simp at hfind
    rw [List.find?_append, hnone]
    simp [List.find?_cons]

/-! ## C4 — catch-all parameter extraction -/

/-- Claim C4, counterexample: the pattern `/[...slug]` contains the
catch-all segment `[...slug]`, its compiled matcher accepts the pathname
`/blog/a/b/c`, yet the extracted `params.slug` is `"blog/a/b/c"`, not
`"a/b/c"` as the claim requires of EVERY registered pattern containing
`[...slug]`. -/
theorem catchall_params_cex :
    extractKeys "/[...slug]" = [{ name := "slug", catchAll := true }] ∧
    regexTest (pathToRegex "/[...slug]") "/blog/a/b/c" = true ∧
    extractParams "/blog/a/b/c" (pathToRegex "/[...slug]")
      (extractKeys "/[...slug]") = [("slug", some "blog/a/b/c")] ∧
    ("blog/a/b/c" : String) ≠ "a/b/c" := by
  refine ⟨by decide, by decide, by decide, by decide⟩

/-- Claim C4, amended: for a pattern whose only placeholder is a final
catch-all (such as `/blog/[...slug]`), matching assigns the entire
remainder after the literal prefix to that name — in particular
`/blog/a/b/c` yields `params.slug = "a/b/c"`.  When the pattern mixes
dynamic and catch-all placeholders the values are NOT assigned to the
names they correspond to: a dynamic segment contributes no capture group
at all (its escaped text is never restored, see
`restoreDynamicSegment`), while `extractKeys` lists catch-all names first,
so catch-all names take the capture groups in order and dynamic names
receive out-of-range (`undefined`) captures — witnessed here concretely by
`/[x]/[...slug]`, the only pathnames it accepts being those whose first
segment is the literal text `([^/]+)`. -/
theorem catchall_params_amended :
    (∀ s : String, (∀ c ∈ s.data, isLineTerm c = false) →
      extractParams ("/blog/" ++ s) (pathToRegex "/blog/[...slug]")
        (extractKeys "/blog/[...slug]") = [("slug", some s)]) ∧
    extractParams "/([^/]+)/z" (pathToRegex "/[x]/[...slug]")
      (extractKeys "/[x]/[...slug]") = [("slug", some "z"), ("x", none)] := by
  constructor
  · intro s hs
    have htoks : pathToRegex "/blog/[...slug]" = litToks "/blog/".data ++ [.wild] := by
      decide
    have hkeys : extractKeys "/blog/[...slug]" =
        [{ name := "slug", catchAll := true }] := by decide
    have hdata : ("/blog/" ++ s).data = "/blog/".data ++ s.data := by
      simp [String.data_append]
    unfold extractParams
    rw [htoks, hkeys, hdata, caps_litToks_append, caps_wild_single s.data hs]
    show setAssoc [] "slug" (some (String.mk s.data)) = [("slug", some s)]
    rfl
  · decide

/-- Claim C4 witness: the amended statement at `s = "a/b/c"`. -/
theorem catchall_params_amended_witness :
    extractParams ("/blog/" ++ "a/b/c") (pathToRegex "/blog/[...slug]")
      (extractKeys "/blog/[...slug]") = [("slug", some "a/b/c")] :=
  catchall_params_amended.1 "a/b/c" (by decide)

/-! ## C6 — the dynamic-segment compile bug -/

/-- Claim C6: the claim (and the spec's round-trip test) require the
matcher compiled for `/shop/[category]/[...rest]` to accept
`/shop/shoes/red/42`; the code rejects it.  The restore step for dynamic
segments (`router.js` line 766) contains an unescaped `^` start-of-input
assertion in the middle of its pattern, so it never fires and the matcher
demands the LITERAL seven characters `([^/]+)` where the dynamic segment
should match — the third conjunct shows the compiled matcher accepting
exactly such a pathname.  (`/shop/shoes` is rejected as the claim says,
by the literal mismatch rather than by segment arity.) -/
theorem dynamic_segment_compile_bug :
    regexTest (pathToRegex "/shop/[category]/[...rest]") "/shop/shoes/red/42"
        = false ∧
    regexTest (pathToRegex "/shop/[category]/[...rest]") "/shop/shoes"
        = false ∧
    regexTest (pathToRegex "/shop/[category]/[...rest]") "/shop/([^/]+)/red/42"
        = true := by
  refine ⟨by decide, by decide, by decide⟩

/-! ## C9 — route caching is opt-out -/

/-- Claim C9: `addRoute` stores a config whose `cache` flag is `true`
unless `options.cache` is exactly (`!==`) the value `false`; omitting the
option (JS `undefined`) or passing any other value yields a cacheable
route. -/
theorem addRoute_cache_opt_out :
    ∀ (st : RouterState) (path : String)
      (handler : NavContext → Except Unit String) (options : RouteOptions),
      ∃ cfg, lookupAssoc (addRoute st path handler options).routes path = some cfg ∧
        (cfg.cache = false ↔ options.cache = JsVal.bool false) ∧
        cfg.cache = !isExplicitFalse options.cache := by
  intro st path handler options
  refine ⟨_, lookupAssoc_setAssoc _ _ _, ?_, rfl⟩
  show (!isExplicitFalse options.cache) = false ↔ options.cache = JsVal.bool false
  cases options.cache with
  | undefined => simp [isExplicitFalse]
  | jsNull => simp [isExplicitFalse]
  | bool b => cases b <;> simp [isExplicitFalse]
  | str s => simp [isExplicitFalse]
  | obj fields => simp [isExplicitFalse]

/-- Claim C9 witness: applying the theorem at a concrete registration with
the cache option omitted. -/
theorem addRoute_cache_opt_out_witness :
    ∃ cfg, lookupAssoc (addRoute emptyRouter "/w" c5Handler {}).routes "/w"
        = some cfg ∧
      (cfg.cache = false ↔ ({} : RouteOptions).cache = JsVal.bool false) ∧
      cfg.cache = !isExplicitFalse ({} : RouteOptions).cache :=
  addRoute_cache_opt_out emptyRouter "/w" c5Handler {}

/-! ## C5 — route matching with nested-prefix fallback -/

/-- The fallback loop returns `none` exactly when no tried prefix (lengths
`1..n`) has an accepting route. -/
theorem matchLoop_eq_none_iff (routes : List (String × RouteConfig))
    (segs : List (List Char)) :
    ∀ n, matchLoop routes segs n = none ↔
      ∀ i, 1 ≤ i → i ≤ n →
        routes.find? (acceptsRoute (prefixPath segs i)) = none := by
  intro n
  induction n with
  | zero =>
    constructor
    · intro _ i h1 h2
      omega
    · intro _
      rfl
  | succ n ih =>
    unfold matchLoop
    cases hf : routes.find? (acceptsRoute (prefixPath segs (n + 1))) with
    | some pr =>
      constructor
      · intro h
        exact absurd h (by simp)
      · intro h
        have h1 := h (n + 1) (by omega) (le_refl _)
        rw [hf] at h1
        exact absurd h1 (by simp)
    | none =>
      rw [ih]
      constructor
      · intro h i h1 h2
        rcases Nat.lt_or_ge i (n + 1) with hlt | hge
        · exact h i h1 (by omega)
        · have heq : i = n + 1 := by omega
          subst heq
          exact hf
      · intro h i h1 h2
        exact h i h1 (by omega)

/-- The fallback loop returns the first accepting route of the LONGEST
prefix (among lengths `1..n`) that has one. -/
theorem matchLoop_eq_some_iff (routes : List (String × RouteConfig))
    (segs : List (List Char)) (r : String × RouteConfig) :
    ∀ n, matchLoop routes segs n = some r ↔
      ∃ i, 1 ≤ i ∧ i ≤ n ∧
        routes.find? (acceptsRoute (prefixPath segs i)) = some r ∧
        ∀ j, i < j → j ≤ n →
          routes.find? (acceptsRoute (prefixPath segs j)) = none := by
  intro n
  induction n with
  | zero =>
    constructor
    · intro h
      exact absurd h (by simp [matchLoop])
    · rintro ⟨i, h1, h2, -⟩
      omega
  | succ n ih =>
    unfold matchLoop
    cases hf : routes.find? (acceptsRoute (prefixPath segs (n + 1))) with
    | some pr =>
      constructor
      · intro h
        refine ⟨n + 1, by omega, le_refl _, ?_, ?_⟩
        · rw [hf]
          exact h
        · intro j hj1 hj2
          omega
      · rintro ⟨i, hi1, hi2, hfi, hnone⟩
        rcases Nat.lt_or_ge i (n + 1) with hlt | hge
        · have h1 := hnone (n + 1) (by omega) (le_refl _)
          rw [hf] at h1
          exact absurd h1 (by simp)
        · have heq : i = n + 1 := by omega
          subst heq
          rw [hf] at hfi
          exact hfi
    | none =>
      rw [ih]
      constructor
      · rintro ⟨i, hi1, hi2, hfi, hnone⟩
        refine ⟨i, hi1, by omega, hfi, ?_⟩
        intro j hj1 hj2
        rcases Nat.lt_or_ge j (n + 1) with hlt | hge
        · exact hnone j hj1 (by omega)
        · have heq : j = n + 1 := by omega
          subst heq
          exact hf
      · rintro ⟨i, hi1, hi2, hfi, hnone⟩
        have hi2' : i ≤ n := by
          rcases Nat.lt_or_ge i (n + 1) with hlt | hge
          · omega
          · have heq : i = n + 1 := by omega
            subst heq
            rw [hf] at hfi
            exact absurd hfi (by simp)
        exact ⟨i, hi1, hi2', hfi, fun j hj1 hj2 => hnone j hj1 (by omega)⟩

/-- Claim C5: `matchRoute` returns the first route (in registration order,
which is what `List.find?` scans) whose matcher accepts the pathname; when
no route accepts it exactly, the pathname's segment prefixes are retried
from full length down to one segment — the result is the first accepting
route of the longest prefix that has one — and the result is `null` if and
only if neither the pathname nor any segment prefix is accepted by any
registered route. -/
theorem matchRoute_spec (routes : List (String × RouteConfig))
    (pathname : String) :
    (∀ r, routes.find? (acceptsRoute pathname) = some r →
        matchRoute routes pathname = some r)
  ∧ (routes.find? (acceptsRoute pathname) = none →
      ∀ r, matchRoute routes pathname = some r ↔
        ∃ i, 1 ≤ i ∧ i ≤ (pathSegments pathname).length ∧
          routes.find? (acceptsRoute (prefixPath (pathSegments pathname) i))
            = some r ∧
          ∀ j, i < j → j ≤ (pathSegments pathname).length →
            routes.find? (acceptsRoute (prefixPath (pathSegments pathname) j))
              = none)
  ∧ (matchRoute routes pathname = none ↔
      routes.find? (acceptsRoute pathname) = none ∧
      ∀ i, 1 ≤ i → i ≤ (pathSegments pathname).length →
        routes.find? (acceptsRoute (prefixPath (pathSegments pathname) i))
          = none) := by
  refine ⟨?_, ?_, ?_⟩
  · intro r h
    unfold matchRoute
    rw [h]
  · intro hnone r
    unfold matchRoute
    rw [hnone]
    exact matchLoop_eq_some_iff routes (pathSegments pathname) r _
  · unfold matchRoute
    cases hf : routes.find? (acceptsRoute pathname) with
    | some pr =>
      constructor
      · intro h
        exact absurd h (by simp)
      · rintro ⟨h1, -⟩
        exact absurd h1 (by simp)
    | none =>
      rw [matchLoop_eq_none_iff]
      simp

/-- Claim C5 witness: with only `/docs` registered, `/docs/guide` has no
exact match and falls back to its one-segment prefix `/docs`. -/
theorem matchRoute_spec_witness :
    matchRoute c5State.routes "/docs/guide" = some ("/docs", c5DocsCfg) := by
  have h := (matchRoute_spec c5State.routes "/docs/guide").2.1 rfl
    ("/docs", c5DocsCfg)
  refine h.mpr ⟨1, le_refl 1, by decide, rfl, ?_⟩
  intro j hj1 hj2
  have hj : j = 2 := by
    have hlen : (pathSegments "/docs/guide").length = 2 := by decide
    omega
  subst hj
  rfl

/-! ## C8 — `{{dotted.path}}` template substitution -/

/-- A placeholder match never starts at a character other than `{`. -/
theorem isPhAt_cons_ne (c : Char) (rest : List Char) (hc : c ≠ '\x7b') :
    isPhAt (c :: rest) = false := by
  cases rest with
  | nil => rfl
  | cons b r => simp [isPhAt, hc]

/-- The result of `processTemplAuxF` does not depend on the fuel once the
fuel exceeds `s.length` (every step strictly shortens the input). -/
theorem processTemplAuxF_fuel_eq (ctx : JsVal) :
    ∀ (f g : Nat) (s : List Char), s.length < f → s.length < g →
      processTemplAuxF ctx f s = processTemplAuxF ctx g s := by
  intro f
  induction f with
  | zero => intro g s hf _; omega
  | succ f ih =>
    intro g s hf hg
    obtain ⟨g, rfl⟩ : ∃ g', g = g' + 1 := ⟨g - 1, by omega⟩
    cases s with
    | nil => rfl
    | cons c rest =>
      have hlt : (phRestAt (c :: rest)).length < rest.length + 1 := by
        unfold phRestAt
        simp only [List.length_drop, List.length_cons]
        omega
      simp only [List.length_cons] at hf hg
      simp only [processTemplAuxF]
      by_cases hph : isPhAt (c :: rest) = true
      · rw [if_pos hph, if_pos hph,
          ih g (phRestAt (c :: rest)) (by omega) (by omega)]
      · rw [if_neg hph, if_neg hph, ih g rest (by omega) (by omega)]

/-- One scan step at a placeholder match. -/
theorem processTemplAux_ph (ctx : JsVal) (s : List Char)
    (h : isPhAt s = true) :
    processTemplAux ctx s =
      renderKey ctx (phKeyAt s) ++ processTemplAux ctx (phRestAt s) := by
  cases s with
  | nil => exact absurd h (by simp [isPhAt])
  | cons c rest =>
    have hlt : (phRestAt (c :: rest)).length < rest.length + 1 := by
      unfold phRestAt
      simp only [List.length_drop, List.length_cons]
      omega
    unfold processTemplAux
    simp only [List.length_cons, processTemplAuxF, if_pos h]
    congr 1
    exact processTemplAuxF_fuel_eq ctx _ _ _ (by omega) (by omega)

/-- One scan step at a non-matching position. -/
theorem processTemplAux_cons_ne (ctx : JsVal) (c : Char) (rest : List Char)
    (h : isPhAt (c :: rest) = false) :
    processTemplAux ctx (c :: rest) = c :: processTemplAux ctx rest := by
  unfold processTemplAux
  simp only [List.length_cons, processTemplAuxF, h, Bool.false_eq_true,
    if_false]

/-- `takeWhile` across a satisfying block up to a stopping character. -/
theorem takeWhile_append_stop (p : Char → Bool) (x : Char) (hx : p x = false) :
    ∀ (k t : List Char), (∀ c ∈ k, p c = true) →
      (k ++ x :: t).takeWhile p = k
  | [], t, _ => by simp [List.takeWhile_cons, hx]
  | c :: k, t, h => by
    have hc : p c = true := h c (List.mem_cons_self c k)
    simp only [List.cons_append, List.takeWhile_cons, hc]
    rw [takeWhile_append_stop p x hx k t
      (fun d hd => h d (List.mem_cons_of_mem c hd))]
    simp

/-- A well-formed placeholder is matched at its start. -/
theorem isPhAt_wf (k t : List Char) (hk : k ≠ []) (hbr : '\x7d' ∉ k) :
    isPhAt ('\x7b' :: '\x7b' :: (k ++ '\x7d' :: '\x7d' :: t)) = true := by
  have htw : (k ++ '\x7d' :: '\x7d' :: t).takeWhile (fun c => c ≠ '\x7d') = k :=
    takeWhile_append_stop _ '\x7d' (by simp) k ('\x7d' :: t)
      (fun c hc => by
        simp only [ne_eq, decide_eq_true_eq]
        exact fun heq => hbr (heq ▸ hc))
  simp only [isPhAt, htw]
  simp [hk, List.drop_left]

/-- The key captured from a well-formed placeholder. -/
theorem phKeyAt_wf (k t : List Char) (hbr : '\x7d' ∉ k) :
    phKeyAt ('\x7b' :: '\x7b' :: (k ++ '\x7d' :: '\x7d' :: t)) = k := by
  have htw : (k ++ '\x7d' :: '\x7d' :: t).takeWhile (fun c => c ≠ '\x7d') = k :=
    takeWhile_append_stop _ '\x7d' (by simp) k ('\x7d' :: t)
      (fun c hc => by
        simp only [ne_eq, decide_eq_true_eq]
        exact fun heq => hbr (heq ▸ hc))
  simp only [phKeyAt, htw]

/-- The remainder after a well-formed placeholder. -/
theorem phRestAt_wf (k t : List Char) (hbr : '\x7d' ∉ k) :
    phRestAt ('\x7b' :: '\x7b' :: (k ++ '\x7d' :: '\x7d' :: t)) = t := by
  unfold phRestAt
  rw [phKeyAt_wf k t hbr]
  show ('\x7b' :: '\x7b' :: (k ++ '\x7d' :: '\x7d' :: t)).drop (k.length + 4) = t
  have h4 : k.length + 4 = (k.length + 2) + 2 := by omega
  rw [h4]
  show (k ++ '\x7d' :: '\x7d' :: t).drop (k.length + 2) = t
  have h2 : k.length + 2 = k.length + 2 := rfl
  calc (k ++ '\x7d' :: '\x7d' :: t).drop (k.length + 2)
      = ('\x7d' :: '\x7d' :: t).drop 2 := by
        rw [List.drop_append]
    _ = t := rfl

/-- The scan passes over brace-free literal text unchanged. -/
theorem processTemplAux_append_lit (ctx : JsVal) :
    ∀ (s t : List Char), (∀ c ∈ s, c ≠ '\x7b') →
      processTemplAux ctx (s ++ t) = s ++ processTemplAux ctx t
  | [], _, _ => by simp
  | c :: s, t, h => by
    have hc : c ≠ '\x7b' := h c (List.mem_cons_self c s)
    rw [List.cons_append, processTemplAux_cons_ne ctx c _ (isPhAt_cons_ne c _ hc),
      processTemplAux_append_lit ctx s t
        (fun d hd => h d (List.mem_cons_of_mem c hd))]
    rfl

/-- The global replace of `processHtmlTemplate` renders a well-formed chunk
decomposition chunk by chunk. -/
theorem chunks_spec (ctx : JsVal) :
    ∀ (cs : List Chunk), (∀ c ∈ cs, chunkWF c) →
      processTemplAux ctx (chunksSource cs) = chunksRender ctx cs
  | [], _ => rfl
  | .lit s :: cs, h => by
    have hs : '\x7b' ∉ s := h (.lit s) (List.mem_cons_self _ _)
    show processTemplAux ctx (chunksSource (.lit s :: cs)) =
      chunksRender ctx (.lit s :: cs)
    unfold chunksSource chunksRender
    simp only [List.map_cons, List.flatten_cons, chunkSource, chunkRender]
    rw [processTemplAux_append_lit ctx s _ (fun c hc heq => hs (heq ▸ hc))]
    exact congrArg (fun l => s ++ l)
      (chunks_spec ctx cs (fun c hc => h c (List.mem_cons_of_mem _ hc)))
  | .ph k :: cs, h => by
    obtain ⟨hk, hbr⟩ : k ≠ [] ∧ '\x7d' ∉ k := h (.ph k) (List.mem_cons_self _ _)
    show processTemplAux ctx (chunksSource (.ph k :: cs)) =
      chunksRender ctx (.ph k :: cs)
    unfold chunksSource chunksRender
    simp only [List.map_cons, List.flatten_cons, chunkSource, chunkRender]
    have hshape :
        ('\x7b' :: '\x7b' :: (k ++ ['\x7d', '\x7d'])) ++ (cs.map chunkSource).flatten
          = '\x7b' :: '\x7b' :: (k ++ '\x7d' :: '\x7d' :: (cs.map chunkSource).flatten) := by
      simp
    rw [hshape, processTemplAux_ph ctx _ (isPhAt_wf k _ hk hbr),
      phKeyAt_wf k _ hbr, phRestAt_wf k _ hbr]
    exact congrArg (fun l => renderKey ctx k ++ l)
      (chunks_spec ctx cs (fun c hc => h c (List.mem_cons_of_mem _ hc)))

/-- Claim C8: every `{{dotted.path}}` placeholder in a fetched HTML text is
replaced by the string conversion of the value reached by walking the
context along the dotted (trimmed) key path, and is left verbatim exactly
when that walk yields `undefined` (that per-placeholder behaviour is
`renderKey`; the first conjunct states that the global scan applies it to
every placeholder of a decomposed text); in particular the spec scenario:
body `"Hi {{params.name}}"` with `params.name = "Ann"` renders `"Hi Ann"`,
and without `params.name` the placeholder stays verbatim. -/
theorem processHtmlTemplate_spec :
    (∀ (ctx : JsVal) (cs : List Chunk), (∀ c ∈ cs, chunkWF c) →
      processTemplAux ctx (chunksSource cs) = chunksRender ctx cs)
  ∧ processHtmlTemplate "Hi \x7b\x7bparams.name\x7d\x7d" ctxAnn = "Hi Ann"
  ∧ processHtmlTemplate "Hi \x7b\x7bparams.name\x7d\x7d" ctxNoName
      = "Hi \x7b\x7bparams.name\x7d\x7d" := by
  refine ⟨chunks_spec, by decide, by decide⟩

/-- Claim C8 witness: the general conjunct applied to the concrete
decomposition of `"Hi {{params.name}}"` under the `Ann` context. -/
theorem processHtmlTemplate_spec_witness :
    processTemplAux ctxAnn
        (chunksSource [.lit "Hi ".data, .ph "params.name".data])
      = chunksRender ctxAnn [.lit "Hi ".data, .ph "params.name".data] :=
  processHtmlTemplate_spec.1 ctxAnn [.lit "Hi ".data, .ph "params.name".data]
    (by
      intro c hc
      simp only [List.mem_cons, List.mem_singleton] at hc
      rcases hc with rfl | rfl | h
      · show '\x7b' ∉ "Hi ".data
        decide
      · show "params.name".data ≠ [] ∧ '\x7d' ∉ "params.name".data
        decide
      · exact absurd h (List.not_mem_nil c))

/-! ## C10 — `applyLayout` replaces only the first `{{content}}` -/

/-- A replacement string without `$` passes through `GetSubstitution`
unchanged. -/
theorem getSubstitution_no_dollar (matched before after : List Char) :
    ∀ (rep : List Char), '$' ∉ rep →
      getSubstitution matched before after rep = rep
  | [], _ => rfl
  | [_], _ => rfl
  | c :: d :: r2, h => by
    have hc : c ≠ '$' := fun heq => h (heq ▸ List.mem_cons_self c _)
    unfold getSubstitution
    rw [if_neg hc]
    exact congrArg (fun l => c :: l)
      (getSubstitution_no_dollar matched before after (d :: r2)
        (fun hm => h (List.mem_cons_of_mem c hm)))

/-- When `pat` occurs right after `a` and at no position inside `a`, its
first occurrence is at index `a.length`. -/
theorem firstIndexOf_append (pat : List Char) :
    ∀ (a b : List Char),
      (∀ i, i < a.length → pat.isPrefixOf ((a ++ pat ++ b).drop i) = false) →
      firstIndexOf (a ++ pat ++ b) pat = some a.length
  | [], b, _ => by
    unfold firstIndexOf
    simp only [List.nil_append]
    rw [if_pos (List.isPrefixOf_iff_prefix.mpr (List.prefix_append pat b))]
    rfl
  | c :: a, b, h => by
    have h0 : ¬ (pat.isPrefixOf ((c :: a) ++ pat ++ b) = true) := by
      have hh := h 0 (by simp)
      simp only [List.drop_zero] at hh
      rw [hh]
      simp
    have hrec : firstIndexOf (a ++ pat ++ b) pat = some a.length := by
      refine firstIndexOf_append pat a b ?_
      intro i hi
      have hh := h (i + 1) (by simp only [List.length_cons]; omega)
      simpa using hh
    unfold firstIndexOf
    rw [if_neg h0]
    show (firstIndexOf (a ++ pat ++ b) pat).map (fun i => i + 1)
      = some ((c :: a).length)
    rw [hrec]
    simp

/-- JS first-occurrence string replace, under the occurrence hypotheses and
a `$`-free replacement, is a pure splice: everything after the replaced
occurrence — including any further occurrence of the pattern — stays
verbatim. -/
theorem jsReplaceOnce_splice (pat rep a b : List Char)
    (hpre : ∀ i, i < a.length →
      pat.isPrefixOf ((a ++ pat ++ b).drop i) = false)
    (hrep : '$' ∉ rep) :
    jsReplaceOnce (a ++ pat ++ b) pat rep = a ++ rep ++ b := by
  unfold jsReplaceOnce
  rw [firstIndexOf_append pat a b hpre]
  show (a ++ pat ++ b).take a.length ++
      getSubstitution pat ((a ++ pat ++ b).take a.length)
        ((a ++ pat ++ b).drop (a.length + pat.length)) rep ++
      (a ++ pat ++ b).drop (a.length + pat.length) = a ++ rep ++ b
  have htake : (a ++ pat ++ b).take a.length = a := by
    rw [List.append_assoc, List.take_left]
  have hdrop : (a ++ pat ++ b).drop (a.length + pat.length) = b := by
    rw [← List.length_append a pat, List.drop_left]
  rw [htake, hdrop, getSubstitution_no_dollar _ _ _ rep hrep]

/-- Claim C10, counterexample: for the layout output
`X{{content}}Y{{content}}` and the content string `"$$"`, `applyLayout`
does NOT replace the first `{{content}}` with the content: JS
`String.prototype.replace` processes replacement patterns, turning `$$`
into a single `$`.  (The claim quantifies over every content string.) -/
theorem applyLayout_dollar_cex :
    (applyLayout c10State "main" "$$" plainCtx).2 = "X$Y\x7b\x7bcontent\x7d\x7d" ∧
    (applyLayout c10State "main" "$$" plainCtx).2 ≠ "X$$Y\x7b\x7bcontent\x7d\x7d" := by
  refine ⟨by decide, by decide⟩

/-- Claim C10, amended: for a registered layout whose rendered output
decomposes as `a ++ "{{content}}" ++ b` with no earlier occurrence, and a
content string containing no `$` (so `GetSubstitution` is the identity on
it), `applyLayout` yields `a ++ content ++ b`: only the FIRST occurrence of
the literal `{{content}}` is replaced and any further occurrence (inside
`b`) stays verbatim — unlike the `{{dotted.path}}` substitution of
`processHtmlTemplate`, which is a global replace (claim C8).  Content
containing `$` is substituted per JS replacement patterns instead of
verbatim. -/
theorem applyLayout_first_occurrence_amended :
    ∀ (st : RouterState) (name content : String) (ctx : NavContext)
      (L : String) (a b : List Char),
      lookupAssoc st.layouts name = some (fun _ => Except.ok L) →
      lookupAssoc st.layoutCache (name ++ "_" ++ ctx.path) = none →
      L.data = a ++ contentPH.data ++ b →
      (∀ i, i < a.length →
        contentPH.data.isPrefixOf ((a ++ contentPH.data ++ b).drop i) = false) →
      '$' ∉ content.data →
      (applyLayout st name content ctx).2 = String.mk (a ++ content.data ++ b) := by
  intro st name content ctx L a b hlay hcache hdecomp hpre hdollar
  have hfinal : (applyLayout st name content ctx).2
      = String.mk (jsReplaceOnce L.data contentPH.data content.data) := by
    unfold applyLayout
    simp only [hlay, hcache]
  rw [hfinal, hdecomp, jsReplaceOnce_splice _ _ _ _ hpre hdollar]

/-- Claim C10 witness: the amended statement at the concrete layout
`X{{content}}Y{{content}}` with content `"Z"`; the second `{{content}}`
remains verbatim. -/
theorem applyLayout_first_occurrence_amended_witness :
    (applyLayout c10State "main" "Z" plainCtx).2
      = String.mk ("X".data ++ "Z".data ++ "Y\x7b\x7bcontent\x7d\x7d".data) :=
  applyLayout_first_occurrence_amended c10State "main" "Z" plainCtx c10Layout
    "X".data "Y\x7b\x7bcontent\x7d\x7d".data rfl rfl (by decide) (by decide)
    (by decide)

/-! ## Navigation pipeline: state-shape lemmas -/

/-- `applyLayout` changes at most the layout cache of the router state. -/
theorem applyLayout_only_layoutCache (st : RouterState) (n : String)
    (c : String) (ctx : NavContext) :
    (applyLayout st n c ctx).1
      = { st with layoutCache := (applyLayout st n c ctx).1.layoutCache } := by
  unfold applyLayout
  repeat' split
  all_goals rfl

/-- `applyLayoutStep` changes at most the layout cache. -/
theorem applyLayoutStep_only_layoutCache (st : RouterState) (cfg : RouteConfig)
    (c : String) (ctx : NavContext) :
    (applyLayoutStep st cfg c ctx).1
      = { st with layoutCache := (applyLayoutStep st cfg c ctx).1.layoutCache } := by
  unfold applyLayoutStep
  split
  · rfl
  · exact applyLayout_only_layoutCache st _ c ctx

/-- `cacheStore` preserves the transition queue. -/
theorem cacheStore_queue (st : RouterState) (cfg : RouteConfig)
    (k : Option String) (c : String) :
    (cacheStore st cfg k c).transitionQueue = st.transitionQueue := by
  unfold cacheStore
  split <;> rfl

/-- `executeRouteWithLayout` preserves the transition queue. -/
theorem executeRouteWithLayout_queue (st : RouterState) (cfg : RouteConfig)
    (ctx : NavContext) :
    (executeRouteWithLayout st cfg ctx).transitionQueue = st.transitionQueue := by
  unfold executeRouteWithLayout
  split
  · rename_i content heq
    show (applyLayoutStep st cfg content ctx).1.transitionQueue
      = st.transitionQueue
    rw [applyLayoutStep_only_layoutCache]
  · split
    · rfl
    · rename_i content heq
      show (applyLayoutStep (cacheStore (getRouteContent st cfg ctx).1 cfg
          ctx.fullPath content) cfg content ctx).1.transitionQueue
        = st.transitionQueue
      rw [applyLayoutStep_only_layoutCache]
      show (cacheStore (getRouteContent st cfg ctx).1 cfg ctx.fullPath
          content).transitionQueue = st.transitionQueue
      rw [cacheStore_queue]
      rfl

/-- `handle404` preserves the transition queue. -/
theorem handle404_queue (st : RouterState) (p : String) :
    (handle404 st p).transitionQueue = st.transitionQueue := by
  unfold handle404
  split
  · rename_i cfg heq
    exact executeRouteWithLayout_queue st cfg _
  · rfl

/-- `commitRoute` preserves the transition queue. -/
theorem commitRoute_queue (st : RouterState) (fp : String)
    (cfg : RouteConfig) :
    (commitRoute st fp cfg).transitionQueue = st.transitionQueue := by
  unfold commitRoute
  show (executeRouteWithLayout
      { paramsStored st fp cfg with
          currentRoute := some (routeContext fp cfg) }
      cfg (routeContext fp cfg)).transitionQueue = st.transitionQueue
  rw [executeRouteWithLayout_queue]
  rfl

/-- `handleRoute` preserves the transition queue. -/
theorem handleRoute_queue (st : RouterState) (fp : String) :
    (handleRoute st fp).1.transitionQueue = st.transitionQueue := by
  unfold handleRoute
  split
  · exact handle404_queue st _
  · rename_i pr heq
    split
    · rfl
    · split
      · rfl
      · rfl
      · exact commitRoute_queue st fp pr.2

/-- `handleRouteWithTransition` preserves the transition queue. -/
theorem handleRouteWithTransition_queue (st : RouterState) (p : String) :
    (handleRouteWithTransition st p).1.transitionQueue = st.transitionQueue := by
  unfold handleRouteWithTransition
  split
  · exact handle404_queue st _
  · exact handleRoute_queue st p

/-- `handleRoute` on a matched route whose (pathname-keyed) guards reject:
only `routeParams`/`queryParams` change and the outcome is
`guardRejected`. -/
theorem handleRoute_guardRejected_eq (st : RouterState) (fp : String)
    (pr : String × RouteConfig)
    (hm : matchRoute st.routes (parseUrlPath fp) = some pr)
    (hg : (runRouteGuardsExec
        ((lookupAssoc st.routeGuards (parseUrlPath fp)).getD [])
        (routeContext fp pr.2)).1 = false) :
    handleRoute st fp = (paramsStored st fp pr.2, .guardRejected) := by
  unfold handleRoute
  rw [hm]
  simp only [hg, Bool.not_false, if_true]

/-- `handleRoute` on a matched route with passing guards and passing
middleware: params stored, `currentRoute` committed, route executed,
event emitted. -/
theorem handleRoute_committed_eq (st : RouterState) (fp : String)
    (pr : String × RouteConfig)
    (hm : matchRoute st.routes (parseUrlPath fp) = some pr)
    (hg : (runRouteGuardsExec
        ((lookupAssoc st.routeGuards (parseUrlPath fp)).getD [])
        (routeContext fp pr.2)).1 = true)
    (hmw : runMiddlewares (st.middlewares ++ pr.2.middleware)
        (routeContext fp pr.2) = .passed) :
    handleRoute st fp = (commitRoute st fp pr.2, .committed) := by
  unfold handleRoute
  rw [hm]
  simp only [hg, Bool.not_true, Bool.false_eq_true, if_false, hmw]

/-- `navigateRun` after a non-throwing handle outcome: history is updated
(push or replace), the flag is cleared, and the queue head (if any) is
dequeued and scheduled. -/
theorem navigateRun_of_handle (st : RouterState) (path : String)
    (opts : NavOptions) (stX : RouterState) (h : HandleOutcome)
    (hne : h ≠ .threw)
    (hhr : handleRouteWithTransition { st with isTransitioning := true } path
      = (stX, h)) :
    navigateRun st path opts =
      (match stX.transitionQueue with
       | [] =>
         ({ stX with history := pushOrReplace stX.history path opts.replace
                     isTransitioning := false }, h.toNav, none)
       | next :: rest =>
         ({ stX with history := pushOrReplace stX.history path opts.replace
                     isTransitioning := false
                     transitionQueue := rest }, h.toNav, some next)) := by
  unfold navigateRun
  rw [hhr]
  cases h
  · rfl
  · rfl
  · rfl
  · exact absurd rfl hne
  · rfl

/-- `navigateRun` when the handle outcome is a thrown error: the `catch`
block clears the flag and renders the navigation-error page, but does NOT
touch the queue. -/
theorem navigateRun_of_threw (st : RouterState) (path : String)
    (opts : NavOptions) (stX : RouterState)
    (hhr : handleRouteWithTransition { st with isTransitioning := true } path
      = (stX, .threw)) :
    navigateRun st path opts =
      (renderContent { stX with isTransitioning := false } (navErrorHtml path),
        .threw, none) := by
  unfold navigateRun
  rw [hhr]

/-! ## C1 — guard rejection: content aborted, history still pushed -/

/-- Claim C1, counterexample: a guard returning `false` on
`navigate("/admin")` leaves `currentRoute` unchanged and renders nothing —
but a NEW HISTORY ENTRY IS PUSHED anyway (`history.pushState` runs
unconditionally after `handleRouteWithTransition`), contradicting the
claim's "no new history entry is pushed or replaced". -/
theorem guard_false_pushes_history_cex :
    (navigate c1State "/admin" {}).2.1 = .guardRejected ∧
    (navigate c1State "/admin" {}).1.currentRoute = some homeCtx ∧
    c1State.currentRoute = some homeCtx ∧
    (navigate c1State "/admin" {}).1.renderLog = [] ∧
    c1State.history = ["/"] ∧
    (navigate c1State "/admin" {}).1.history = ["/", "/admin"] := by
  refine ⟨by decide, by decide, by decide, by decide, by decide, by decide⟩

/-- Claim C1, amended: when a guard of the navigated pathname rejects, the
navigation aborts with no content change — `currentRoute`, the render log
and the page cache are untouched and the flag ends false — but the history
IS still updated (a push, or a replace under `options.replace`), because
`navigate` updates history unconditionally after handling the route. -/
theorem guard_false_aborts_content_but_pushes_history :
    ∀ (st : RouterState) (path : String) (opts : NavOptions)
      (pr : String × RouteConfig),
      (st.isTransitioning && !opts.force) = false →
      (sameRouteB st path && !opts.force) = false →
      matchRoute st.routes (parseUrlPath path) = some pr →
      (runRouteGuardsExec
          ((lookupAssoc st.routeGuards (parseUrlPath path)).getD [])
          (routeContext path pr.2)).1 = false →
      (navigate st path opts).2.1 = .guardRejected ∧
      (navigate st path opts).1.currentRoute = st.currentRoute ∧
      (navigate st path opts).1.renderLog = st.renderLog ∧
      (navigate st path opts).1.pageCache = st.pageCache ∧
      (navigate st path opts).1.history
        = pushOrReplace st.history path opts.replace ∧
      (navigate st path opts).1.isTransitioning = false := by
  intro st path opts pr hq hs hm hg
  have hm1 : matchRoute ({ st with isTransitioning := true } : RouterState).routes
      (parseUrlPath path) = some pr := hm
  have hg1 : (runRouteGuardsExec
      ((lookupAssoc ({ st with isTransitioning := true } : RouterState).routeGuards
        (parseUrlPath path)).getD [])
      (routeContext path pr.2)).1 = false := hg
  have hhr : handleRouteWithTransition { st with isTransitioning := true } path
      = (paramsStored { st with isTransitioning := true } path pr.2,
          .guardRejected) := by
    unfold handleRouteWithTransition
    rw [hm1]
    exact handleRoute_guardRejected_eq _ path pr hm1 hg1
  have hnav : navigate st path opts = navigateRun st path opts := by
    unfold navigate
    rw [hq, hs]
    simp
  rw [hnav, navigateRun_of_handle st path opts _ .guardRejected (by simp) hhr]
  have hqe : (paramsStored { st with isTransitioning := true } path
      pr.2).transitionQueue = st.transitionQueue := rfl
  rw [hqe]
  cases hq2 : st.transitionQueue with
  | nil => exact ⟨rfl, rfl, rfl, rfl, rfl, rfl⟩
  | cons q qs => exact ⟨rfl, rfl, rfl, rfl, rfl, rfl⟩

/-- Claim C1 witness: the amended theorem at the concrete `/admin` fixture. -/
theorem guard_false_aborts_content_witness :
    (navigate c1State "/admin" {}).2.1 = .guardRejected ∧
    (navigate c1State "/admin" {}).1.currentRoute = c1State.currentRoute ∧
    (navigate c1State "/admin" {}).1.renderLog = c1State.renderLog ∧
    (navigate c1State "/admin" {}).1.pageCache = c1State.pageCache ∧
    (navigate c1State "/admin" {}).1.history
      = pushOrReplace c1State.history "/admin" false ∧
    (navigate c1State "/admin" {}).1.isTransitioning = false :=
  guard_false_aborts_content_but_pushes_history c1State "/admin" {}
    ("/admin", c1AdminCfg) (by decide) (by decide) rfl (by decide)

/-! ## C3 — guards are keyed by pathname, run in order, short-circuit -/

/-- Claim C3, counterexample: a guard registered under the matched route's
PATTERN `/admin/[...rest]` (which would reject) is ignored when navigating
`/admin/secret` — the route matches that pattern, yet the navigation
commits and renders, because `handleRoute` looks guards up under the
navigated PATHNAME. -/
theorem guards_keyed_by_pathname_cex :
    (lookupAssoc c3State.routeGuards "/admin/[...rest]").isSome = true ∧
    (runRouteGuardsExec
      ((lookupAssoc c3State.routeGuards "/admin/[...rest]").getD [])
      homeCtx).1 = false ∧
    (matchRoute c3State.routes "/admin/secret").map Prod.fst
      = some "/admin/[...rest]" ∧
    (navigate c3State "/admin/secret" {}).2.1 = .committed ∧
    (navigate c3State "/admin/secret" {}).1.renderLog = ["SECRET"] := by
  refine ⟨by decide, by decide, by decide, by decide, by decide⟩

/-- Claim C3, amended: the guards executed for a navigation are exactly
those registered under the navigated PATHNAME (not under the matched
route's pattern — the two coincide only for literal routes): with no
guards under the pathname a navigation is never guard-rejected (first
conjunct), and a guard-rejected outcome always comes from the
pathname-keyed guard list rejecting (second conjunct).  Guards run in
registration order; when all return something other than `false` without
throwing, every guard runs and the navigation is accepted (third
conjunct); the first guard that returns exactly `false` OR throws stops
execution — exactly the guards before it plus itself have run, and the
navigation is rejected (fourth conjunct). -/
theorem guards_run_by_pathname_in_order :
    (∀ (st : RouterState) (fp : String),
      lookupAssoc st.routeGuards (parseUrlPath fp) = none →
      (handleRoute st fp).2 ≠ .guardRejected)
  ∧ (∀ (st : RouterState) (fp : String),
      (handleRoute st fp).2 = .guardRejected →
      ∃ pr, matchRoute st.routes (parseUrlPath fp) = some pr ∧
        (runRouteGuardsExec
          ((lookupAssoc st.routeGuards (parseUrlPath fp)).getD [])
          (routeContext fp pr.2)).1 = false)
  ∧ (∀ (gs : List RouteGuard) (ctx : NavContext),
      (∀ g ∈ gs, g ctx = .retOther) →
      runRouteGuardsExec gs ctx = (true, gs.length))
  ∧ (∀ (gs1 : List RouteGuard) (g : RouteGuard) (gs2 : List RouteGuard)
      (ctx : NavContext),
      (∀ g' ∈ gs1, g' ctx = .retOther) →
      (g ctx = .retFalse ∨ g ctx = .threw) →
      runRouteGuardsExec (gs1 ++ g :: gs2) ctx = (false, gs1.length + 1)) := by
  refine ⟨?_, ?_, ?_, ?_⟩
  · intro st fp hnone
    unfold handleRoute
    split
    · simp
    · rename_i pr heq
      simp only [hnone, Option.getD_none, runRouteGuardsExec, Bool.not_true,
        Bool.false_eq_true, if_false]
      split <;> simp
  · intro st fp hres
    unfold handleRoute at hres
    rcases hmm : matchRoute st.routes (parseUrlPath fp) with _ | pr
    · rw [hmm] at hres
      simp at hres
    · rw [hmm] at hres
      by_cases hg : (runRouteGuardsExec
          ((lookupAssoc st.routeGuards (parseUrlPath fp)).getD [])
          (routeContext fp pr.2)).1 = false
      · exact ⟨pr, rfl, hg⟩
      · have hg' : (runRouteGuardsExec
            ((lookupAssoc st.routeGuards (parseUrlPath fp)).getD [])
            (routeContext fp pr.2)).1 = true := by
          cases hgv : (runRouteGuardsExec
              ((lookupAssoc st.routeGuards (parseUrlPath fp)).getD [])
              (routeContext fp pr.2)).1
          · exact absurd hgv hg
          · rfl
        simp only [hg', Bool.not_true, Bool.false_eq_true, if_false] at hres
        rcases hmw : runMiddlewares (st.middlewares ++ pr.2.middleware)
            (routeContext fp pr.2) with _ | _ | _ <;>
          rw [hmw] at hres <;> simp at hres
  · intro gs ctx h
    induction gs with
    | nil => rfl
    | cons g gs ih =>
      have hg : g ctx = .retOther := h g (List.mem_cons_self g gs)
      simp only [runRouteGuardsExec, hg]
      rw [ih (fun g' hg' => h g' (List.mem_cons_of_mem g hg'))]
      simp
  · intro gs1 g gs2 ctx hpre hfail
    induction gs1 with
    | nil =>
      rcases hfail with hf | hf <;>
        simp [runRouteGuardsExec, hf]
    | cons g1 gs1 ih =>
      have hg1 : g1 ctx = .retOther := hpre g1 (List.mem_cons_self g1 gs1)
      simp only [List.cons_append, runRouteGuardsExec, hg1, List.append_eq]
      rw [ih (fun g' h' => hpre g' (List.mem_cons_of_mem g1 h'))]
      simp

/-- Claim C3 witness: three guards where the second returns `false` — the
first two run (in order) and the third does not. -/
theorem guards_run_by_pathname_in_order_witness :
    runRouteGuardsExec
      ([fun _ => CallResult.retOther] ++
        (fun _ => CallResult.retFalse) :: [fun _ => CallResult.retOther])
      homeCtx = (false, 2) := by
  have h := guards_run_by_pathname_in_order.2.2.2
    [fun _ => CallResult.retOther] (fun _ => CallResult.retFalse)
    [fun _ => CallResult.retOther] homeCtx
    (fun g' hg' => by
      simp only [List.mem_singleton] at hg'
      subst hg'
      rfl)
    (Or.inl rfl)
  simpa using h

/-! ## C2 — flag reset and queue drain -/

/-- Claim C2, counterexample: a thrown (middleware) error resets
`isTransitioning` but does NOT drain the queue — the `catch` block of
`navigate` has no queue-processing step, so the queued entry stays and
nothing is scheduled, contradicting "the queue is drained after failures
as well as successes". -/
theorem thrown_error_leaves_queue_cex :
    c2State.transitionQueue = [("/q", {})] ∧
    (navigate c2State "/x" {}).2.1 = .threw ∧
    (navigate c2State "/x" {}).1.isTransitioning = false ∧
    (navigate c2State "/x" {}).1.transitionQueue = [("/q", {})] ∧
    (navigate c2State "/x" {}).2.2 = none := by
  refine ⟨by decide, by decide, by decide, by decide, by decide⟩

/-- Claim C2, amended: every `navigate` call that is not queued ends with
`isTransitioning = false` (a queued call leaves the flag to the in-flight
navigation and schedules nothing).  After the non-throwing outcomes —
not-found, guard rejection, middleware rejection, commit — the queue is
drained: its head, if any, is removed and scheduled for processing.  After
a THROWN error the flag is reset but the `catch` block does NOT drain the
queue; the same-route skip also returns without draining. -/
theorem navigate_resets_flag_and_drains_queue_except_throw :
    ∀ (st : RouterState) (path : String) (opts : NavOptions),
      ((navigate st path opts).2.1 ≠ .queued →
        (navigate st path opts).1.isTransitioning = false)
    ∧ ((navigate st path opts).2.1 = .queued →
        (navigate st path opts).1.isTransitioning = st.isTransitioning ∧
        (navigate st path opts).2.2 = none)
    ∧ (((navigate st path opts).2.1 = .notFound ∨
        (navigate st path opts).2.1 = .guardRejected ∨
        (navigate st path opts).2.1 = .middlewareRejected ∨
        (navigate st path opts).2.1 = .committed) →
        ((st.transitionQueue = [] →
          (navigate st path opts).1.transitionQueue = [] ∧
          (navigate st path opts).2.2 = none) ∧
        (∀ q qs, st.transitionQueue = q :: qs →
          (navigate st path opts).1.transitionQueue = qs ∧
          (navigate st path opts).2.2 = some q)))
    ∧ ((navigate st path opts).2.1 = .threw →
        (navigate st path opts).1.transitionQueue = st.transitionQueue ∧
        (navigate st path opts).2.2 = none)
    ∧ ((navigate st path opts).2.1 = .skipped →
        (navigate st path opts).1.transitionQueue = st.transitionQueue ∧
        (navigate st path opts).2.2 = none) := by
  intro st path opts
  by_cases h1 : (st.isTransitioning && !opts.force) = true
  · have hnav : navigate st path opts =
        ({ st with transitionQueue := st.transitionQueue ++ [(path, opts)] },
          .queued, none) := by
      unfold navigate
      rw [if_pos h1]
    rw [hnav]
    refine ⟨?_, ?_, ?_, ?_, ?_⟩
    · intro h
      exact absurd rfl h
    · intro _
      exact ⟨rfl, rfl⟩
    · intro h
      rcases h with h | h | h | h <;> simp at h
    · intro h
      simp at h
    · intro h
      simp at h
  · have h1f : (st.isTransitioning && !opts.force) = false :=
      Bool.eq_false_iff.mpr h1
    by_cases h2 : (sameRouteB st path && !opts.force) = true
    · have hnav : navigate st path opts = (st, .skipped, none) := by
        unfold navigate
        rw [if_neg h1, if_pos h2]
      have hforce : (!opts.force) = true := by
        have h2c := h2
        rw [Bool.and_eq_true] at h2c
        exact h2c.2
      have hflag : st.isTransitioning = false := by
        rw [hforce] at h1f
        simpa using h1f
      rw [hnav]
      refine ⟨?_, ?_, ?_, ?_, ?_⟩
      · intro _
        exact hflag
      · intro h
        simp at h
      · intro h
        rcases h with h | h | h | h <;> simp at h
      · intro h
        simp at h
      · intro _
        exact ⟨rfl, rfl⟩
    · have hnav : navigate st path opts = navigateRun st path opts := by
        unfold navigate
        rw [if_neg h1, if_neg h2]
      rcases hhr : handleRouteWithTransition { st with isTransitioning := true }
          path with ⟨stX, ho⟩
      have hqX : stX.transitionQueue = st.transitionQueue := by
        have hq := handleRouteWithTransition_queue
          { st with isTransitioning := true } path
        rw [hhr] at hq
        exact hq
      cases ho
      rotate_left 3
      · rw [hnav, navigateRun_of_threw st path opts stX hhr]
        refine ⟨?_, ?_, ?_, ?_, ?_⟩
        · intro _
          rfl
        · intro h
          simp at h
        · intro h
          rcases h with h | h | h | h <;> simp at h
        · intro _
          refine ⟨?_, rfl⟩
          show ({ stX with isTransitioning := false } : RouterState).transitionQueue
            = st.transitionQueue
          exact hqX
        · intro h
          simp at h
      all_goals
        rw [hnav, navigateRun_of_handle st path opts stX _ (by simp) hhr]
        rw [hqX]
        cases hq2 : st.transitionQueue with
        | nil =>
          refine ⟨?_, ?_, ?_, ?_, ?_⟩
          · intro _
            rfl
          · intro h
            simp [HandleOutcome.toNav] at h
          · intro _
            exact ⟨fun _ => ⟨rfl, rfl⟩,
              fun q qs hq3 => absurd hq3 (by simp)⟩
          · intro h
            simp [HandleOutcome.toNav] at h
          · intro h
            simp [HandleOutcome.toNav] at h
        | cons q0 qs0 =>
          refine ⟨?_, ?_, ?_, ?_, ?_⟩
          · intro _
            rfl
          · intro h
            simp [HandleOutcome.toNav] at h
          · intro _
            refine ⟨fun h => absurd h (by simp), ?_⟩
            intro q qs hq3
            injection hq3 with hqa hqb
            subst hqa
            subst hqb
            exact ⟨rfl, rfl⟩
          · intro h
            simp [HandleOutcome.toNav] at h
          · intro h
            simp [HandleOutcome.toNav] at h

/-- Claim C2 witness: a committed navigation with a non-empty queue
dequeues and schedules the head. -/
theorem navigate_drains_queue_witness :
    (navigate c2DrainState "/x" {}).1.transitionQueue = [] ∧
    (navigate c2DrainState "/x" {}).2.2 = some ("/q", {}) :=
  ((navigate_resets_flag_and_drains_queue_except_throw
      c2DrainState "/x" {}).2.2.1
    (Or.inr (Or.inr (Or.inr (by decide))))).2 ("/q", {}) [] rfl

/-! ## C7 — page cache: one acquisition per cacheable full path -/

/-- Claim C7, counterexample: `cache: true` does not guarantee a single
content acquisition per full path.  The cache store is guarded by
`routeConfig.cache && content` — JS-falsy (empty) content is never stored —
so the cacheable route `/e` whose handler returns `""` is re-acquired on
every navigation: after navigating `/e`, `/b`, `/e` the acquisition log
shows `/e` acquired twice. -/
theorem cache_acquisition_twice_cex :
    (lookupAssoc c7EmptyContentState.routes "/e").map RouteConfig.cache
      = some true ∧
    c7CexFinal.acquireLog = [some "/e", some "/b", some "/e"] := by
  refine ⟨by decide, by decide⟩

/-- Claim C7, amended: for a cacheable route (i) a cache miss whose handler
returns TRUTHY (non-empty) content acquires once and stores that pre-layout
content in the page cache keyed by `context.fullPath`; (ii) a cache hit
(shown for a layout-free route) skips acquisition entirely — the state
change is exactly one render of the cached content, with the acquisition
log untouched.  (Falsy content is never stored, so such a route is
re-acquired every time — see the counterexample.) -/
theorem cacheable_route_acquires_once_amended :
    ∀ (st : RouterState) (cfg : RouteConfig) (ctx : NavContext) (c : String),
      (cfg.cache = true →
        lookupAssoc st.pageCache ctx.fullPath = none →
        cfg.handler ctx = .ok c →
        ¬(c = "") →
        lookupAssoc (executeRouteWithLayout st cfg ctx).pageCache ctx.fullPath
            = some c ∧
          (executeRouteWithLayout st cfg ctx).acquireLog
            = st.acquireLog ++ [ctx.fullPath])
    ∧ (cfg.cache = true →
        lookupAssoc st.pageCache ctx.fullPath = some c →
        cfg.layout = none →
        executeRouteWithLayout st cfg ctx = renderContent st c ∧
          (executeRouteWithLayout st cfg ctx).acquireLog = st.acquireLog) := by
  intro st cfg ctx c
  constructor
  · intro hc hmiss hh hne
    have hcond : (if cfg.cache then lookupAssoc st.pageCache ctx.fullPath
        else none) = none := by
      simp [hc, hmiss]
    have hg2 : (getRouteContent st cfg ctx).2 = Except.ok c := hh
    have hexe : executeRouteWithLayout st cfg ctx
        = renderContent
          (applyLayoutStep (cacheStore (getRouteContent st cfg ctx).1 cfg
            ctx.fullPath c) cfg c ctx).1
          (applyLayoutStep (cacheStore (getRouteContent st cfg ctx).1 cfg
            ctx.fullPath c) cfg c ctx).2 := by
      unfold executeRouteWithLayout
      simp only [hcond, hg2]
    have hcc : (cfg.cache && !(c == "")) = true := by
      simp [hc, hne]
    have hstore : cacheStore (getRouteContent st cfg ctx).1 cfg ctx.fullPath c
        = { (getRouteContent st cfg ctx).1 with
            pageCache := setAssoc (getRouteContent st cfg ctx).1.pageCache
              ctx.fullPath c } := by
      unfold cacheStore
      rw [if_pos hcc]
    constructor
    · rw [hexe]
      show lookupAssoc (applyLayoutStep (cacheStore
          (getRouteContent st cfg ctx).1 cfg ctx.fullPath c) cfg c
          ctx).1.pageCache ctx.fullPath = some c
      rw [applyLayoutStep_only_layoutCache]
      show lookupAssoc (cacheStore (getRouteContent st cfg ctx).1 cfg
          ctx.fullPath c).pageCache ctx.fullPath = some c
      rw [hstore]
      exact lookupAssoc_setAssoc st.pageCache ctx.fullPath c
    · rw [hexe]
      show (applyLayoutStep (cacheStore (getRouteContent st cfg ctx).1 cfg
          ctx.fullPath c) cfg c ctx).1.acquireLog
        = st.acquireLog ++ [ctx.fullPath]
      rw [applyLayoutStep_only_layoutCache]
      show (cacheStore (getRouteContent st cfg ctx).1 cfg ctx.fullPath
          c).acquireLog = st.acquireLog ++ [ctx.fullPath]
      rw [hstore]
      rfl
  · intro hc hhit hlay
    have hcond : (if cfg.cache then lookupAssoc st.pageCache ctx.fullPath
        else none) = some c := by
      simp [hc, hhit]
    have hstep : applyLayoutStep st cfg c ctx = (st, c) := by
      unfold applyLayoutStep
      simp only [hlay]
    have hmain : executeRouteWithLayout st cfg ctx = renderContent st c := by
      unfold executeRouteWithLayout
      simp only [hcond]
      rw [hstep]
    exact ⟨hmain, by rw [hmain]; rfl⟩

/-- Claim C7 witness: the route `/a` (content `"HELLO"`, cacheable by
default) is acquired and cached on a fresh router, and after the
navigations `/a`, `/b` a renewed execution of `/a` is a pure cache hit. -/
theorem cacheable_route_acquires_once_witness :
    (lookupAssoc (executeRouteWithLayout c7State c7ACfg
        (routeContext "/a" c7ACfg)).pageCache
        (routeContext "/a" c7ACfg).fullPath = some "HELLO" ∧
      (executeRouteWithLayout c7State c7ACfg
        (routeContext "/a" c7ACfg)).acquireLog
        = c7State.acquireLog ++ [(routeContext "/a" c7ACfg).fullPath]) ∧
    (executeRouteWithLayout c7StateAfterAB c7ACfg (routeContext "/a" c7ACfg)
        = renderContent c7StateAfterAB "HELLO" ∧
      (executeRouteWithLayout c7StateAfterAB c7ACfg
        (routeContext "/a" c7ACfg)).acquireLog
        = c7StateAfterAB.acquireLog) :=
  ⟨(cacheable_route_acquires_once_amended c7State c7ACfg
      (routeContext "/a" c7ACfg) "HELLO").1 (by decide) (by decide) rfl
      (by decide),
    (cacheable_route_acquires_once_amended c7StateAfterAB c7ACfg
      (routeContext "/a" c7ACfg) "HELLO").2 (by decide) (by decide) rfl⟩

end Velocity
